import Mathlib

/-!
Verification of the order-classification / synchronization / customer-conversion
core of the repository (a FastAPI + SQLModel + polars order-management system).

The embedding models the relational state as Lean lists of records and each
service method of `app/services/order_sync_service.py` and
`app/services/customer_service.py` as a pure state-transforming function.

Modelling conventions:
  * SQL / Python `datetime` values are modelled as `Nat` ticks; `NULL`-able
    columns are `Option`; monetary `float` amounts are modelled as `Rat`
    (exact arithmetic; the spec only asks for agreement up to floating-point
    tolerance).
  * SQL three-valued comparison is modelled explicitly: a comparison with
    `NULL` on either side is false (`sqlGt`), and `x IN (list)` is false for
    `NULL` (`sqlInList`).
  * Python truthiness of an optional string (`if shop:`) is `truthyStr`:
    false for `None` and for the empty string.
  * `NOW()` / `datetime.now(...)` is passed in as an explicit `now : Nat`
    parameter of each run.
  * `polars.read_database_uri` opens its own database connection, so inside
    one service call it sees the state as *committed at the start of the
    call*, not the uncommitted writes of the call session.  The customer
    extraction functions therefore take both a `snapshot` (committed state
    read by polars) and a working state (the ORM session view).
-/

namespace PandasCore

/-- SQL `a > b` on two nullable timestamps: false when either side is NULL. -/
def sqlGt : Option Nat → Option Nat → Bool
  | some a, some b => b < a
  | _, _ => false

/-- SQL `x IN (l)`: false when `x` is NULL. -/
def sqlInList : Option String → List String → Bool
  | some a, l => l.contains a
  | none, _ => false

/-- Python truthiness of an optional string: `None` and `""` are falsy. -/
def truthyStr : Option String → Bool
  | some s => !(s == "")
  | none => false

/-- Python `a or b` for optional datetimes (a datetime object is never falsy). -/
def pyOr (a b : Option Nat) : Option Nat :=
  match a with
  | some x => some x
  | none => b

/-- Keep the first occurrence of each element, preserving order
(the model of `polars.unique(maintain_order=True)`). -/
def dedupFirst {α : Type} [DecidableEq α] : List α → List α
  | [] => []
  | a :: l => a :: ((dedupFirst l).filter (fun x => x ≠ a))

/-! ## Order synchronization model (`app/services/order_sync_service.py`)

`original_orders`, `sample_orders` and `bulk_orders` are structurally
identical for the purposes of the sync SQL: a business `order_id`, the block
of mirrored business columns, plus `created_at` / `updated_at`.  The mirrored
columns are exactly the 25 columns listed in the UPDATE statement of
`sync_sample_orders` (lines 32–59). -/

/-- The 25 mirrored business columns of an order row, as in the SET list of
the sync UPDATE statements. -/
structure Mirrored where
  role : Option String
  handler : Option String
  process : Option String
  amount : Option Rat
  picture_amount : Option Int
  picture_price : Option Rat
  picture_cost : Option Rat
  color_cost : Option Rat
  work_cost : Option Rat
  cloth_price : Option Rat
  quantity : Option Int
  cloth_cost : Option Rat
  cloth_pack_cost : Option Rat
  cloth_code : Option String
  color_amount : Option Int
  customer_name : Option String
  phone : Option String
  shop : Option String
  express : Option String
  order_status : Option String
  order_created_date : Option Nat
  order_processed_date : Option Nat
  completion_date : Option Nat
  order_type : Option String
  notes : Option String
deriving DecidableEq, Repr

/-- A row of `original_orders`, `sample_orders` or `bulk_orders` as seen by
the sync SQL (the serial `id` column plays no role in synchronization).
The SQLModel schema declares `updated_at` NOT NULL, but the sync SQL
explicitly guards `updated_at IS NULL`, so it is modelled as nullable. -/
structure OrderRow where
  order_id : String
  m : Mirrored
  created_at : Nat
  updated_at : Option Nat
deriving DecidableEq, Repr

/-- Order-type labels routed to `sample_orders`
(`o.order_type IN ('纯衣看样', '打样单')`). -/
def sampleOrderTypes : List String := ["纯衣看样", "打样单"]

/-- Order-type labels routed to `bulk_orders`
(`o.order_type IN ('新订单', '续订单', '纯衣单', '改版续订')`). -/
def bulkOrderTypes : List String := ["新订单", "续订单", "纯衣单", "改版续订"]

/-- Database state touched by `OrderSyncService`. -/
structure SyncDB where
  original_orders : List OrderRow
  sample_orders : List OrderRow
  bulk_orders : List OrderRow
deriving DecidableEq, Repr

/-- Result counters of one sync call. -/
structure SyncStats where
  inserted : Nat
  updated : Nat
  errors : Nat
deriving DecidableEq, Repr

/-- Join-and-staleness condition of the sync UPDATE statement: the canonical
row `o` matches the typed row `r` and `r` is stale
(`o.updated_at > r.updated_at OR r.updated_at IS NULL`). -/
def staleMatch (types : List String) (o r : OrderRow) : Bool :=
  o.order_id == r.order_id && sqlInList o.m.order_type types &&
    (sqlGt o.updated_at r.updated_at || r.updated_at == none)

/-- Effect of the UPDATE statement on one matched typed row: every mirrored
column is overwritten from the canonical row and `updated_at` is set to
`NOW()`; `order_id` and `created_at` are not in the SET list. -/
def applySyncUpdate (now : Nat) (o r : OrderRow) : OrderRow :=
  { r with m := o.m, updated_at := some now }

/-- Result of the UPDATE statement on one typed row: overwritten from the
first stale-making canonical row if any, otherwise untouched. -/
def syncUpdateRow (types : List String) (now : Nat) (canonical : List OrderRow)
    (r : OrderRow) : OrderRow :=
  match canonical.find? (fun o => staleMatch types o r) with
  | some o => applySyncUpdate now o r
  | none => r

/-- The UPDATE … FROM original_orders statement: each typed row joined to a
stale-making canonical row is overwritten; returns the new table and the
statement rowcount. -/
def syncUpdatePhase (types : List String) (now : Nat)
    (canonical typed : List OrderRow) : List OrderRow × Nat :=
  (typed.map (syncUpdateRow types now canonical),
   (typed.filter (fun r =>
      (canonical.find? (fun o => staleMatch types o r)).isSome)).length)

/-- The INSERT … SELECT statement: canonical rows of the target type whose
`order_id` has no row yet in the typed table are copied in full (including
`created_at` and `updated_at`); returns the new table and the rowcount. -/
def syncInsertPhase (types : List String)
    (canonical typed : List OrderRow) : List OrderRow × Nat :=
  let newRows := canonical.filter (fun o =>
    sqlInList o.m.order_type types &&
      !(typed.any (fun r => r.order_id == o.order_id)))
  (typed ++ newRows, newRows.length)

/-- One successful sync pass over one typed table: UPDATE phase then INSERT
phase, in the order of the source. -/
def syncTableRun (types : List String) (now : Nat)
    (canonical typed : List OrderRow) : List OrderRow × SyncStats :=
  let u := syncUpdatePhase types now canonical typed
  let i := syncInsertPhase types canonical u.1
  (i.1, ⟨i.2, u.2, 0⟩)

/-- Where, if anywhere, a database exception interrupts one sync call:
during the UPDATE statement (this covers a total failure to read
`original_orders`, whose first read is in the UPDATE), or during the INSERT
statement. -/
inductive SyncFault where
  | noFault
  | duringUpdate
  | duringInsert
deriving DecidableEq, Repr

/-- The method `sync_sample_orders`, with an explicit fault injection point.
On any exception the session is rolled back (state unchanged) and
`stats["errors"] = 1` is returned — counters already assigned before the
failing statement are kept in the returned dict, exactly as in the source
(`stats["updated"]` is assigned before the INSERT runs). The exception is
caught inside the method and never re-raised. -/
def sync_sample_orders_f (fault : SyncFault) (now : Nat) (db : SyncDB) :
    SyncStats × SyncDB :=
  match fault with
  | .duringUpdate => (⟨0, 0, 1⟩, db)
  | .duringInsert =>
      let u := syncUpdatePhase sampleOrderTypes now db.original_orders db.sample_orders
      (⟨0, u.2, 1⟩, db)
  | .noFault =>
      let r := syncTableRun sampleOrderTypes now db.original_orders db.sample_orders
      (r.2, { db with sample_orders := r.1 })

/-- The method `sync_sample_orders` on a fault-free execution. -/
def sync_sample_orders (now : Nat) (db : SyncDB) : SyncStats × SyncDB :=
  sync_sample_orders_f .noFault now db

/-- The method `sync_bulk_orders`, with an explicit fault injection point. -/
def sync_bulk_orders_f (fault : SyncFault) (now : Nat) (db : SyncDB) :
    SyncStats × SyncDB :=
  match fault with
  | .duringUpdate => (⟨0, 0, 1⟩, db)
  | .duringInsert =>
      let u := syncUpdatePhase bulkOrderTypes now db.original_orders db.bulk_orders
      (⟨0, u.2, 1⟩, db)
  | .noFault =>
      let r := syncTableRun bulkOrderTypes now db.original_orders db.bulk_orders
      (r.2, { db with bulk_orders := r.1 })

/-- The method `sync_bulk_orders` on a fault-free execution. -/
def sync_bulk_orders (now : Nat) (db : SyncDB) : SyncStats × SyncDB :=
  sync_bulk_orders_f .noFault now db

/-- One invocation in a sequence of sync calls: which target table, at which
clock time. -/
inductive SyncOp where
  | sample (now : Nat)
  | bulk (now : Nat)
deriving DecidableEq, Repr

/-- Apply one sync call to the database state. -/
def applySyncOp (db : SyncDB) : SyncOp → SyncDB
  | .sample now => (sync_sample_orders now db).2
  | .bulk now => (sync_bulk_orders now db).2

/-- Apply a whole sequence of sync calls. -/
def runSyncOps (db : SyncDB) (ops : List SyncOp) : SyncDB :=
  ops.foldl applySyncOp db

/-! ## Customer service model (`app/services/customer_service.py`)

Rows keep only the columns the service reads or writes; the remaining
CRUD-only columns (notes, tags, wechat, follow-up dates, …) are never touched
by the extraction pipeline and are omitted.  `id` columns are serial primary
keys; `session.flush()` assigns the next value of a per-table counter. -/

/-- Projection of a `sample_orders` / `bulk_orders` row used by customer
extraction (`SELECT id, order_id, customer_name, shop, handler FROM …`, plus
the `order_created_date` / `created_at` / `amount` columns read from the ORM
object when the association row is built).  `order_id` is NOT NULL and unique
in the schema, so it is a plain `String`. -/
structure TypedOrderRec where
  id : Nat
  order_id : String
  customer_name : Option String
  shop : Option String
  handler : Option String
  order_created_date : Option Nat
  created_at : Nat
  amount : Option Rat
deriving DecidableEq, Repr

/-- A `sample_customers` row (the columns the service touches). -/
structure SampleCustomerRec where
  id : Nat
  customer_name : String
  shop : Option String
  handler : Option String
  first_sample_date : Option Nat
  last_sample_date : Option Nat
  total_sample_amount : Rat
  sample_orders_count : Nat
  converted_to_bulk : Bool
  conversion_date : Option Nat
  bulk_customer_id : Option Nat
deriving DecidableEq, Repr

/-- A `bulk_customers` row (the columns the service touches). -/
structure BulkCustomerRec where
  id : Nat
  customer_name : String
  shop : Option String
  handler : Option String
  first_bulk_date : Option Nat
  last_bulk_date : Option Nat
  total_bulk_amount : Rat
  bulk_orders_count : Nat
  converted_from_sample : Bool
  sample_customer_id : Option Nat
deriving DecidableEq, Repr

/-- A `sample_order_customers` association row. -/
structure SampleRelationRec where
  sample_customer_id : Nat
  order_id : String
  order_date : Option Nat
  amount : Option Rat
deriving DecidableEq, Repr

/-- A `bulk_order_customers` association row. -/
structure BulkRelationRec where
  bulk_customer_id : Nat
  order_id : String
  order_date : Option Nat
  amount : Option Rat
deriving DecidableEq, Repr

/-- A `customer_conversions` row. -/
structure ConversionRec where
  sample_customer_id : Nat
  bulk_customer_id : Nat
  conversion_date : Nat
deriving DecidableEq, Repr

/-- Database state touched by `CustomerService`, plus the serial-id counters
of the two customer tables. -/
structure CDB where
  sample_orders : List TypedOrderRec
  bulk_orders : List TypedOrderRec
  sample_customers : List SampleCustomerRec
  bulk_customers : List BulkCustomerRec
  sample_relations : List SampleRelationRec
  bulk_relations : List BulkRelationRec
  conversions : List ConversionRec
  next_sample_id : Nat
  next_bulk_id : Nat
deriving DecidableEq, Repr

/-- The mutable `stats` dict of `extract_customers_from_orders`. -/
structure CStats where
  new_sample : Nat
  updated_sample : Nat
  new_bulk : Nat
  updated_bulk : Nat
  sample_relations : Nat
  bulk_relations : Nat
  conversions : Nat
  errors : Nat
deriving DecidableEq, Repr

/-- The initial all-zero `stats` dict. -/
def CStats.zero : CStats := ⟨0, 0, 0, 0, 0, 0, 0, 0⟩

/-- The dict returned by `extract_customers_from_orders`. -/
structure ExtractResult where
  new : Nat
  updated : Nat
  sample_relations : Nat
  bulk_relations : Nat
  errors : Nat
deriving DecidableEq, Repr

/-- A distinct `(customer_name, shop, handler)` tuple iterated by the
extraction loops. -/
abbrev CTuple := String × Option String × Option String

/-- The method `_find_or_create_sample_customer`: look up by exact
`customer_name`, additionally filtering on `shop` only when the sighted shop
is truthy; on a hit, fill previously-falsy `shop` / `handler` metadata and
count an update; on a miss, insert a new customer row and count a creation.
Returns the customer id and the new session state. -/
def find_or_create_sample_customer (name : String) (shop handler : Option String)
    (db : CDB) (st : CStats) : Nat × CDB × CStats :=
  let q := fun (c : SampleCustomerRec) =>
    c.customer_name == name && (if truthyStr shop then c.shop == shop else true)
  match (db.sample_customers.filter q).head? with
  | some existing =>
      let upd := { existing with
        shop := if truthyStr shop && !truthyStr existing.shop then shop else existing.shop,
        handler := if truthyStr handler && !truthyStr existing.handler then handler
          else existing.handler }
      (existing.id,
       { db with sample_customers := db.sample_customers.map (fun c =>
           if c.id == existing.id then upd else c) },
       { st with updated_sample := st.updated_sample + 1 })
  | none =>
      let cid := db.next_sample_id
      let newC : SampleCustomerRec :=
        { id := cid, customer_name := name, shop := shop, handler := handler,
          first_sample_date := none, last_sample_date := none,
          total_sample_amount := 0, sample_orders_count := 0,
          converted_to_bulk := false, conversion_date := none,
          bulk_customer_id := none }
      (cid,
       { db with sample_customers := db.sample_customers ++ [newC],
                 next_sample_id := cid + 1 },
       { st with new_sample := st.new_sample + 1 })

/-- The method `_find_or_create_bulk_customer` (symmetric to the sample one). -/
def find_or_create_bulk_customer (name : String) (shop handler : Option String)
    (db : CDB) (st : CStats) : Nat × CDB × CStats :=
  let q := fun (c : BulkCustomerRec) =>
    c.customer_name == name && (if truthyStr shop then c.shop == shop else true)
  match (db.bulk_customers.filter q).head? with
  | some existing =>
      let upd := { existing with
        shop := if truthyStr shop && !truthyStr existing.shop then shop else existing.shop,
        handler := if truthyStr handler && !truthyStr existing.handler then handler
          else existing.handler }
      (existing.id,
       { db with bulk_customers := db.bulk_customers.map (fun c =>
           if c.id == existing.id then upd else c) },
       { st with updated_bulk := st.updated_bulk + 1 })
  | none =>
      let cid := db.next_bulk_id
      let newC : BulkCustomerRec :=
        { id := cid, customer_name := name, shop := shop, handler := handler,
          first_bulk_date := none, last_bulk_date := none,
          total_bulk_amount := 0, bulk_orders_count := 0,
          converted_from_sample := false, sample_customer_id := none }
      (cid,
       { db with bulk_customers := db.bulk_customers ++ [newC],
                 next_bulk_id := cid + 1 },
       { st with new_bulk := st.new_bulk + 1 })

/-- The method `_create_sample_order_relation`: insert an association row for
`(sample_customer_id, order.order_id)` unless one already exists; the row
carries `order_created_date or created_at` and `amount` denormalized from the
order.  Returns whether a row was inserted. -/
def create_sample_order_relation (cid : Nat) (order : TypedOrderRec) (db : CDB) :
    CDB × Bool :=
  if db.sample_relations.any (fun r =>
      r.sample_customer_id == cid && r.order_id == order.order_id) then
    (db, false)
  else
    ({ db with sample_relations := db.sample_relations ++
        [{ sample_customer_id := cid, order_id := order.order_id,
           order_date := pyOr order.order_created_date (some order.created_at),
           amount := order.amount }] },
     true)

/-- The method `_create_bulk_order_relation` (symmetric). -/
def create_bulk_order_relation (cid : Nat) (order : TypedOrderRec) (db : CDB) :
    CDB × Bool :=
  if db.bulk_relations.any (fun r =>
      r.bulk_customer_id == cid && r.order_id == order.order_id) then
    (db, false)
  else
    ({ db with bulk_relations := db.bulk_relations ++
        [{ bulk_customer_id := cid, order_id := order.order_id,
           order_date := pyOr order.order_created_date (some order.created_at),
           amount := order.amount }] },
     true)

/-- Body of one iteration of the tuple loop of
`_extract_from_sample_orders_polars`: find or create the customer for the
tuple, then walk every valid order with that `customer_name` (the loop
filters on name only, not on the shop or handler of the tuple) and create the
missing associations.  `session.get(SampleOrder, id)` re-reads a row that is
present in the committed snapshot and never deleted during the call, so it is
modelled as the row itself. -/
def processSampleTuple (valid : List TypedOrderRec) (acc : CDB × CStats)
    (t : CTuple) : CDB × CStats :=
  let r1 := find_or_create_sample_customer t.1 t.2.1 t.2.2 acc.1 acc.2
  let customerOrders := valid.filter (fun o => o.customer_name == some t.1)
  customerOrders.foldl (fun a o =>
      let r := create_sample_order_relation r1.1 o a.1
      (r.1, if r.2 then { a.2 with sample_relations := a.2.sample_relations + 1 }
            else a.2))
    (r1.2.1, r1.2.2)

/-- Body of one iteration of the tuple loop of
`_extract_from_bulk_orders_polars` (symmetric). -/
def processBulkTuple (valid : List TypedOrderRec) (acc : CDB × CStats)
    (t : CTuple) : CDB × CStats :=
  let r1 := find_or_create_bulk_customer t.1 t.2.1 t.2.2 acc.1 acc.2
  let customerOrders := valid.filter (fun o => o.customer_name == some t.1)
  customerOrders.foldl (fun a o =>
      let r := create_bulk_order_relation r1.1 o a.1
      (r.1, if r.2 then { a.2 with bulk_relations := a.2.bulk_relations + 1 }
            else a.2))
    (r1.2.1, r1.2.2)

/-- Rows of a typed-order table surviving
`drop_nulls(subset=[customer_name, order_id])` (`order_id` is NOT NULL in the
schema, so only `customer_name` filters). -/
def validOrders (orders : List TypedOrderRec) : List TypedOrderRec :=
  orders.filter (fun o => o.customer_name.isSome)

/-- The distinct `(customer_name, shop, handler)` tuples of a valid-order
list, in first-occurrence order
(`unique(maintain_order=True)` over the three columns). -/
def orderTuples (valid : List TypedOrderRec) : List CTuple :=
  dedupFirst (valid.map (fun o => (o.customer_name.getD "", o.shop, o.handler)))

/-- The method `_extract_from_sample_orders_polars`.  The polars dataframe is
read over a separate connection, hence from `snapshot` (the state committed
at the start of the enclosing call); ORM reads and writes go through the
session state `db`. -/
def extractFromSampleOrders (snapshot : CDB) (db : CDB) (st : CStats) :
    CDB × CStats :=
  let valid := validOrders snapshot.sample_orders
  if valid.isEmpty then (db, st)
  else (orderTuples valid).foldl (processSampleTuple valid) (db, st)

/-- The method `_extract_from_bulk_orders_polars` (symmetric). -/
def extractFromBulkOrders (snapshot : CDB) (db : CDB) (st : CStats) :
    CDB × CStats :=
  let valid := validOrders snapshot.bulk_orders
  if valid.isEmpty then (db, st)
  else (orderTuples valid).foldl (processBulkTuple valid) (db, st)

/-- Names imported at module level by `app/services/customer_service.py`
(lines 1–12): `from datetime import datetime, timedelta`, `polars as pl`,
the sqlmodel and model imports, `get_engine` and `logging`.  `timezone` is
not among them. -/
def customerServiceImportedNames : List String :=
  ["datetime", "timedelta", "pl", "Session", "select", "text", "func",
   "SampleCustomer", "BulkCustomer", "SampleOrderCustomer", "BulkOrderCustomer",
   "CustomerConversion", "SampleOrder", "BulkOrder", "get_engine", "logging"]

/-- Python builtins referenced by the module (none of which is `timezone`). -/
def relevantPythonBuiltins : List String :=
  ["print", "len", "set", "str", "int", "float", "dict", "list", "getattr",
   "round", "Exception", "ValueError"]

/-- Whether a bare name resolves in the module scope of
`customer_service.py`. -/
def nameDefined (n : String) : Bool :=
  customerServiceImportedNames.contains n || relevantPythonBuiltins.contains n

/-- The inner-join of the two customer registries on `customer_name`, in row
order (the pair list iterated by `_identify_customer_conversions_polars`). -/
def convPairs (snapshot : CDB) : List (SampleCustomerRec × BulkCustomerRec) :=
  snapshot.sample_customers.flatMap (fun s =>
    (snapshot.bulk_customers.filter (fun b => b.customer_name == s.customer_name)).map
      (fun b => (s, b)))

/-- The pair loop of `_identify_customer_conversions_polars`.  For an
already-linked pair nothing happens.  Otherwise the source evaluates
`datetime.now(timezone.utc)`; `timezone` does not resolve in the module
scope, so a `NameError` is raised before anything is added to the session.
The branch guarded by `nameDefined "timezone"` is the faithful translation of
the intended writes and is unreachable. -/
def convertsLoop (now : Nat) :
    List (SampleCustomerRec × BulkCustomerRec) → CDB → CStats →
    Except String (CDB × CStats)
  | [], db, st => .ok (db, st)
  | p :: rest, db, st =>
      if db.conversions.any (fun c =>
          c.sample_customer_id == p.1.id && c.bulk_customer_id == p.2.id) then
        convertsLoop now rest db st
      else if nameDefined "timezone" then
        let conv : ConversionRec :=
          { sample_customer_id := p.1.id, bulk_customer_id := p.2.id,
            conversion_date := now }
        let db1 := { db with conversions := db.conversions ++ [conv] }
        let db2 := { db1 with sample_customers := db1.sample_customers.map (fun (c : SampleCustomerRec) =>
          if c.id == p.1.id then
            { c with converted_to_bulk := true, conversion_date := some now,
                     bulk_customer_id := some p.2.id }
          else c) }
        let db3 := { db2 with bulk_customers := db2.bulk_customers.map (fun (c : BulkCustomerRec) =>
          if c.id == p.2.id then
            { c with converted_from_sample := true,
                     sample_customer_id := some p.1.id }
          else c) }
        convertsLoop now rest db3 { st with conversions := st.conversions + 1 }
      else
        .error "NameError: name timezone is not defined"

/-- The method `_identify_customer_conversions_polars`: read both registries
from the committed snapshot, return early when either is empty, otherwise run
the pair loop against the session state. -/
def identify_customer_conversions (now : Nat) (snapshot db : CDB) (st : CStats) :
    Except String (CDB × CStats) :=
  if snapshot.sample_customers.isEmpty || snapshot.bulk_customers.isEmpty then
    .ok (db, st)
  else convertsLoop now (convPairs snapshot) db st

/-- Association rows surviving the stats query
`WHERE order_date IS NOT NULL AND amount IS NOT NULL`. -/
def qualifyingSampleRelations (snapshot : CDB) : List SampleRelationRec :=
  snapshot.sample_relations.filter (fun r => r.order_date.isSome && r.amount.isSome)

/-- Association rows surviving the bulk stats query. -/
def qualifyingBulkRelations (snapshot : CDB) : List BulkRelationRec :=
  snapshot.bulk_relations.filter (fun r => r.order_date.isSome && r.amount.isSome)

/-- One group of the polars `group_by(sample_customer_id)` aggregation
written onto a customer row: count, sum of amounts, min and max order date of
the qualifying rows of that customer. -/
def sampleStatsFields (rels : List SampleRelationRec) (cid : Nat)
    (c : SampleCustomerRec) : SampleCustomerRec :=
  let group := rels.filter (fun r => r.sample_customer_id == cid)
  { c with
    sample_orders_count := group.length,
    total_sample_amount := (group.map (fun r => r.amount.getD 0)).sum,
    first_sample_date := (group.map (fun r => r.order_date.getD 0)).min?,
    last_sample_date := (group.map (fun r => r.order_date.getD 0)).max? }

/-- One group of the bulk aggregation written onto a bulk customer row. -/
def bulkStatsFields (rels : List BulkRelationRec) (cid : Nat)
    (c : BulkCustomerRec) : BulkCustomerRec :=
  let group := rels.filter (fun r => r.bulk_customer_id == cid)
  { c with
    bulk_orders_count := group.length,
    total_bulk_amount := (group.map (fun r => r.amount.getD 0)).sum,
    first_bulk_date := (group.map (fun r => r.order_date.getD 0)).min?,
    last_bulk_date := (group.map (fun r => r.order_date.getD 0)).max? }

/-- The method `_update_sample_customer_stats_polars`: read the qualifying
association rows from the committed snapshot, return early when none,
otherwise write each group onto the customer row with that id in the session
state (missing customers are skipped by the `if customer:` guard, which the
map-by-id update models as a no-op). -/
def update_sample_customer_stats (snapshot db : CDB) : CDB :=
  let rels := qualifyingSampleRelations snapshot
  if rels.isEmpty then db
  else
    (dedupFirst (rels.map (fun r => r.sample_customer_id))).foldl
      (fun d cid =>
        { d with sample_customers := d.sample_customers.map (fun c =>
            if c.id == cid then sampleStatsFields rels cid c else c) })
      db

/-- The method `_update_bulk_customer_stats_polars` (symmetric). -/
def update_bulk_customer_stats (snapshot db : CDB) : CDB :=
  let rels := qualifyingBulkRelations snapshot
  if rels.isEmpty then db
  else
    (dedupFirst (rels.map (fun r => r.bulk_customer_id))).foldl
      (fun d cid =>
        { d with bulk_customers := d.bulk_customers.map (fun c =>
            if c.id == cid then bulkStatsFields rels cid c else c) })
      db

/-- The statistics stage run standalone on a committed state (no pending
session writes, so snapshot and session state coincide): the
`recompute_statistics(Sample)` maintenance entry point. -/
def recompute_sample_statistics (db : CDB) : CDB :=
  update_sample_customer_stats db db

/-- The `recompute_statistics(Bulk)` maintenance entry point. -/
def recompute_bulk_statistics (db : CDB) : CDB :=
  update_bulk_customer_stats db db

/-- Tail of `extract_customers_from_orders` after the two extraction steps
(whose output is `b`): run the conversion step; on its exception roll back
(return the committed state with the counters accumulated so far and
`errors = 1`); on success run the two statistics steps and commit. -/
def extractStep3 (now : Nat) (committed : CDB) (b : CDB × CStats) :
    ExtractResult × CDB :=
  match identify_customer_conversions now committed b.1 b.2 with
  | .error _ =>
      (⟨b.2.new_sample + b.2.new_bulk, b.2.updated_sample + b.2.updated_bulk,
        b.2.sample_relations, b.2.bulk_relations, 1⟩, committed)
  | .ok r =>
      (⟨r.2.new_sample + r.2.new_bulk, r.2.updated_sample + r.2.updated_bulk,
        r.2.sample_relations, r.2.bulk_relations, 0⟩,
       update_bulk_customer_stats committed
         (update_sample_customer_stats committed r.1))

/-- The method `extract_customers_from_orders` on the committed state: run
the five sub-steps sequentially on the session state, commit on success; on
any exception roll the session back (the committed state is returned
unchanged) and return the counters accumulated so far with `errors = 1`.  In
this model the only run-time exception is the `NameError` of the conversion
step. -/
def extract_customers_from_orders (now : Nat) (committed : CDB) :
    ExtractResult × CDB :=
  extractStep3 now committed
    (extractFromBulkOrders committed
      (extractFromSampleOrders committed committed CStats.zero).1
      (extractFromSampleOrders committed committed CStats.zero).2)

/-- Run a sequence of `extract_customers_from_orders` calls at the given
clock times, keeping the committed state. -/
def runExtracts (db : CDB) (times : List Nat) : CDB :=
  times.foldl (fun d t => (extract_customers_from_orders t d).2) db

/-- Tuple processing with a database-fault oracle: processing tuple `t`
raises when `fail t` (modelling a database error inside
`_find_or_create_sample_customer` or the relation loop for that tuple, which
no handler inside the loop catches).  The raised error carries the `stats`
dict as mutated so far, since the source keeps the mutated dict. -/
def processSampleTupleE (fail : CTuple → Bool) (valid : List TypedOrderRec)
    (acc : CDB × CStats) (t : CTuple) : Except CStats (CDB × CStats) :=
  if fail t then .error acc.2
  else .ok (processSampleTuple valid acc t)

/-- The sample extraction loop with the fault oracle: the first failing tuple
aborts the whole loop (there is no try/except inside
`_extract_from_sample_orders_polars`). -/
def extractFromSampleOrdersE (fail : CTuple → Bool) (snapshot : CDB) (db : CDB)
    (st : CStats) : Except CStats (CDB × CStats) :=
  let valid := validOrders snapshot.sample_orders
  if valid.isEmpty then .ok (db, st)
  else (orderTuples valid).foldlM (processSampleTupleE fail valid) (db, st)

/-- The method `extract_customers_from_orders` with the fault oracle on the
sample tuple loop: a tuple failure propagates to the single try/except of the
method, which rolls back the whole session and returns the accumulated
counters with `errors = 1`. -/
def extract_customers_from_orders_f (fail : CTuple → Bool) (now : Nat)
    (committed : CDB) : ExtractResult × CDB :=
  match extractFromSampleOrdersE fail committed committed CStats.zero with
  | .error st =>
      (⟨st.new_sample + st.new_bulk, st.updated_sample + st.updated_bulk,
        st.sample_relations, st.bulk_relations, 1⟩, committed)
  | .ok a =>
      extractStep3 now committed (extractFromBulkOrders committed a.1 a.2)

/-- A mirrored-column block that is NULL everywhere except the order-type
label (convenient concrete instance for examples). -/
def mkMirror (ot : Option String) : Mirrored :=
  ⟨none, none, none, none, none, none, none, none, none, none, none, none,
   none, none, none, none, none, none, none, none, none, none, none, ot, none⟩

/-- The empty sync database. -/
def emptySyncDB : SyncDB := ⟨[], [], []⟩

/-- The empty customer-service database, with both id counters at 1. -/
def emptyCDB : CDB := ⟨[], [], [], [], [], [], [], 1, 1⟩

/-- A concrete two-registry state: one sample customer with one fully
non-null association row, and one bulk customer with one fully non-null
association row (used to evaluate the statistics stage on both tables). -/
def statsWitnessCDB : CDB :=
  { emptyCDB with
    sample_customers :=
      [⟨1, "张三", none, none, none, none, 0, 0, false, none, none⟩],
    sample_relations := [⟨1, "S001", some 5, some 37⟩],
    bulk_customers :=
      [⟨1, "张三", none, none, none, none, 0, 0, false, none⟩],
    bulk_relations := [⟨1, "B001", some 6, some 41⟩] }

/-- The identity key of a sample customer row, per the spec:
`(customer_name, shop)`. -/
def pairOf (c : SampleCustomerRec) : String × Option String :=
  (c.customer_name, c.shop)

/-- The `(customer_name, shop)` pairs of the orders with non-null
customer_name (and non-null order identifier), in row order. -/
def orderPairs (orders : List TypedOrderRec) : List (String × Option String) :=
  (validOrders orders).map (fun o => (o.customer_name.getD "", o.shop))

/-- The pair of no-duplicate-key invariants of the two association tables. -/
def relKeysNodup (db : CDB) : Prop :=
  ((db.sample_relations.map
    (fun r => (r.sample_customer_id, r.order_id))).Nodup) ∧
  ((db.bulk_relations.map
    (fun r => (r.bulk_customer_id, r.order_id))).Nodup)

/-- Structural invariant of the sample registry used for the
distinct-customer count: the order table is fixed, the `(name, shop)` pairs
and the ids of the registry rows are duplicate-free, every registry row has a
truthy shop, and every id is below the serial counter. -/
def SampleRegInv (os : List TypedOrderRec) (db : CDB) : Prop :=
  db.sample_orders = os ∧
  ((db.sample_customers.map pairOf).Nodup) ∧
  (∀ c ∈ db.sample_customers, truthyStr c.shop = true) ∧
  ((db.sample_customers.map SampleCustomerRec.id).Nodup) ∧
  (∀ c ∈ db.sample_customers, c.id < db.next_sample_id)

/-! ## Theorems -/

section ListLemmas

variable {α : Type} {β : Type}

theorem find?_eq_some_of_unique (l : List α) (p : α → Bool) (a : α)
    (ha : a ∈ l) (hpa : p a = true) (huniq : ∀ b ∈ l, p b = true → b = a) :
    l.find? p = some a := by
  induction l with
  | nil => cases ha
  | cons x xs ih =>
    rcases List.mem_cons.mp ha with h | h
    · subst h
      simp [List.find?_cons_of_pos _ hpa]
    · by_cases hx : p x = true
      · have hxa : x = a := huniq x (List.mem_cons_self _ _) hx
        subst hxa
        simp [List.find?_cons_of_pos _ hx]
      · rw [List.find?_cons_of_neg _ (by simpa using hx)]
        exact ih h (fun b hb hpb => huniq b (List.mem_cons_of_mem _ hb) hpb)

theorem filter_key_singleton [BEq β] [LawfulBEq β] (key : α → β) (k : β)
    (l : List α) (r : α) (hr : r ∈ l) (hk : key r = k)
    (hn : (l.map key).Nodup) :
    l.filter (fun x => key x == k) = [r] := by
  induction l with
  | nil => cases hr
  | cons x xs ih =>
    have hn1 : (xs.map key).Nodup := (List.nodup_cons.mp hn).2
    have hnx : key x ∉ xs.map key := (List.nodup_cons.mp hn).1
    rcases List.mem_cons.mp hr with h | h
    · subst h
      have hx : (key r == k) = true := by simp [hk]
      have hrest : xs.filter (fun x => key x == k) = [] := by
        apply List.filter_eq_nil_iff.mpr
        intro b hb hbk
        have hbk2 : key b = k := by simpa using hbk
        have hrb : key r = key b := by rw [hk, hbk2]
        exact hnx (by
          rw [hrb]
          exact List.mem_map_of_mem key hb)
      simp [List.filter_cons, hx, hrest]
    · have hxk : (key x == k) = false := by
        apply beq_eq_false_iff_ne.mpr
        intro hcon
        have hxr : key x = key r := by rw [hcon, hk]
        exact hnx (by
          rw [hxr]
          exact List.mem_map_of_mem key h)
      simp [List.filter_cons, hxk]
      exact ih h hn1

end ListLemmas

theorem updateRow_order_id (types : List String) (now : Nat)
    (canonical : List OrderRow) (r : OrderRow) :
    (syncUpdateRow types now canonical r).order_id = r.order_id := by
  unfold syncUpdateRow
  cases canonical.find? (fun o => staleMatch types o r) <;> rfl

/-! ### C9: failure semantics of order synchronization -/

/-- C9 counterexample: a failure that prevents reading the canonical table
(the UPDATE statement is the first read of `original_orders`) does NOT
re-raise: the call rolls back and returns normally with
`{inserted: 0, updated: 0, errors: 1}`, i.e. it merely returns an error
count — contradicting the claim that the error is re-raised to the caller. -/
theorem C9_counterexample :
    sync_sample_orders_f .duringUpdate 5
      { emptySyncDB with
        original_orders := [⟨"S001", mkMirror (some "打样单"), 0, some 1⟩] }
      = (⟨0, 0, 1⟩,
         { emptySyncDB with
           original_orders := [⟨"S001", mkMirror (some "打样单"), 0, some 1⟩] }) := rfl

/-- C9 (amended): any failure inside a sync call — including a total failure
to read the canonical table — is caught inside the method: the transaction is
rolled back (state unchanged), the call returns normally with `errors = 1`
and `inserted = 0`, and the exception is never re-raised.  There is no
per-row error granularity: the error counter is 0 or 1 per call and all of
the stage's writes are discarded. -/
theorem C9_sync_failure_rolls_back_and_returns (fault : SyncFault) (now : Nat)
    (db : SyncDB) (h : fault ≠ SyncFault.noFault) :
    (sync_sample_orders_f fault now db).2 = db ∧
    (sync_sample_orders_f fault now db).1.errors = 1 ∧
    (sync_sample_orders_f fault now db).1.inserted = 0 ∧
    (sync_bulk_orders_f fault now db).2 = db ∧
    (sync_bulk_orders_f fault now db).1.errors = 1 ∧
    (sync_bulk_orders_f fault now db).1.inserted = 0 := by
  cases fault with
  | noFault => exact absurd rfl h
  | duringUpdate => exact ⟨rfl, rfl, rfl, rfl, rfl, rfl⟩
  | duringInsert => exact ⟨rfl, rfl, rfl, rfl, rfl, rfl⟩

/-- C9 witness: the amended theorem applied at a concrete fault and state. -/
theorem C9_witness :
    (sync_sample_orders_f .duringUpdate 0 emptySyncDB).2 = emptySyncDB ∧
    (sync_sample_orders_f .duringUpdate 0 emptySyncDB).1.errors = 1 ∧
    (sync_sample_orders_f .duringUpdate 0 emptySyncDB).1.inserted = 0 ∧
    (sync_bulk_orders_f .duringUpdate 0 emptySyncDB).2 = emptySyncDB ∧
    (sync_bulk_orders_f .duringUpdate 0 emptySyncDB).1.errors = 1 ∧
    (sync_bulk_orders_f .duringUpdate 0 emptySyncDB).1.inserted = 0 :=
  C9_sync_failure_rolls_back_and_returns .duringUpdate 0 emptySyncDB (by decide)

/-! ### C7: unclassified orders are inert -/

theorem find?_staleMatch_none_of_unclassified (types : List String)
    (canonical : List OrderRow) (oid : String) (r : OrderRow)
    (hrid : r.order_id = oid)
    (h : ∀ o ∈ canonical, o.order_id = oid → sqlInList o.m.order_type types = false) :
    canonical.find? (fun o => staleMatch types o r) = none := by
  apply List.find?_eq_none.mpr
  intro o ho
  by_cases hoid : o.order_id = r.order_id
  · have hcls := h o ho (by rw [hoid, hrid])
    simp [staleMatch, hcls]
  · simp [staleMatch, hoid]

theorem filter_oid_syncTable (types : List String) (now : Nat)
    (canonical typed : List OrderRow) (oid : String)
    (h : ∀ o ∈ canonical, o.order_id = oid → sqlInList o.m.order_type types = false) :
    (syncTableRun types now canonical typed).1.filter (fun r => r.order_id == oid)
      = typed.filter (fun r => r.order_id == oid) := by
  have hA : (syncUpdatePhase types now canonical typed).1.filter
      (fun r => r.order_id == oid) = typed.filter (fun r => r.order_id == oid) := by
    show (typed.map _).filter _ = _
    induction typed with
    | nil => rfl
    | cons r rs ih =>
      simp only [List.map_cons, List.filter_cons]
      by_cases hrid : r.order_id = oid
      · rw [show syncUpdateRow types now canonical r = r from by
          unfold syncUpdateRow
          rw [find?_staleMatch_none_of_unclassified types canonical oid r hrid h]]
        simp only [ih]
      · have hme : (syncUpdateRow types now canonical r).order_id = r.order_id :=
          updateRow_order_id types now canonical r
        have hfalse : (r.order_id == oid) = false := by
          simpa using hrid
        simp only [hme, hfalse]
        simp [ih]
  have hB : ∀ tb : List OrderRow,
      (canonical.filter (fun o => sqlInList o.m.order_type types &&
        !(tb.any (fun r => r.order_id == o.order_id)))).filter
          (fun r => r.order_id == oid) = [] := by
    intro tb
    apply List.filter_eq_nil_iff.mpr
    intro o ho hoid
    have hmem := List.mem_filter.mp ho
    have hcls := h o hmem.1 (by simpa using hoid)
    have hpass := hmem.2
    rw [hcls] at hpass
    simp at hpass
  show ((syncUpdatePhase types now canonical typed).1 ++ _).filter _ = _
  rw [List.filter_append, hA, hB]
  exact List.append_nil _

/-- C7: a canonical order whose order-type label is in neither the Sample
enumeration nor the Bulk enumeration (for example `未知类型`, the empty
string, or NULL) is never inserted into and never updates a row of
`sample_orders` or `bulk_orders`, under any sequence of sync calls: the rows
carrying its order identifier in both typed tables are exactly what they were
before. -/
theorem C7_unclassified_orders_inert (db : SyncDB) (oid : String)
    (ops : List SyncOp)
    (h : ∀ o ∈ db.original_orders, o.order_id = oid →
        sqlInList o.m.order_type sampleOrderTypes = false ∧
        sqlInList o.m.order_type bulkOrderTypes = false) :
    (runSyncOps db ops).sample_orders.filter (fun r => r.order_id == oid)
      = db.sample_orders.filter (fun r => r.order_id == oid) ∧
    (runSyncOps db ops).bulk_orders.filter (fun r => r.order_id == oid)
      = db.bulk_orders.filter (fun r => r.order_id == oid) := by
  induction ops generalizing db with
  | nil => exact ⟨rfl, rfl⟩
  | cons op rest ih =>
    have hrun : runSyncOps db (op :: rest) = runSyncOps (applySyncOp db op) rest :=
      List.foldl_cons _ _
    have horig : (applySyncOp db op).original_orders = db.original_orders := by
      cases op <;> rfl
    have hsample : (applySyncOp db op).sample_orders.filter
        (fun r => r.order_id == oid) = db.sample_orders.filter
        (fun r => r.order_id == oid) := by
      cases op with
      | sample now =>
        exact filter_oid_syncTable sampleOrderTypes now db.original_orders
          db.sample_orders oid (fun o ho hoid => (h o ho hoid).1)
      | bulk now => rfl
    have hbulk : (applySyncOp db op).bulk_orders.filter
        (fun r => r.order_id == oid) = db.bulk_orders.filter
        (fun r => r.order_id == oid) := by
      cases op with
      | sample now => rfl
      | bulk now =>
        exact filter_oid_syncTable bulkOrderTypes now db.original_orders
          db.bulk_orders oid (fun o ho hoid => (h o ho hoid).2)
    have hrec := ih (applySyncOp db op) (by rw [horig]; exact h)
    rw [hrun]
    exact ⟨hrec.1.trans hsample, hrec.2.trans hbulk⟩

/-- C7 witness: a canonical order labelled `未知类型` stays out of both typed
tables across a concrete sequence of three sync calls. -/
theorem C7_witness :
    (runSyncOps
      { emptySyncDB with
        original_orders := [⟨"X9", mkMirror (some "未知类型"), 0, some 3⟩] }
      [.sample 1, .bulk 2, .sample 3]).sample_orders.filter
        (fun r => r.order_id == "X9") = [] ∧
    (runSyncOps
      { emptySyncDB with
        original_orders := [⟨"X9", mkMirror (some "未知类型"), 0, some 3⟩] }
      [.sample 1, .bulk 2, .sample 3]).bulk_orders.filter
        (fun r => r.order_id == "X9") = [] :=
  C7_unclassified_orders_inert
    { emptySyncDB with
      original_orders := [⟨"X9", mkMirror (some "未知类型"), 0, some 3⟩] }
    "X9" [.sample 1, .bulk 2, .sample 3] (by decide)

/-! ### C4: stale typed rows are overwritten in place -/

theorem filter_oid_map_comm (oid : String) (l : List OrderRow)
    (g : OrderRow → OrderRow) (hg : ∀ x, (g x).order_id = x.order_id) :
    (l.map g).filter (fun x => x.order_id == oid)
      = (l.filter (fun x => x.order_id == oid)).map g := by
  induction l with
  | nil => rfl
  | cons x xs ih =>
    simp only [List.map_cons, List.filter_cons, hg x]
    cases hb : (x.order_id == oid) <;> simp [hb, ih]

/-- C4: for a canonical order classifying to Sample whose order identifier
already has a (unique) row in `sample_orders`: when the typed row is stale
(canonical `updated_at` strictly greater, or typed `updated_at` NULL), one
sync call overwrites all mirrored fields of that row and stamps its
`updated_at` with the call time, leaving it the only row with that order
identifier (no duplicate insert); when it is not stale, the row is returned
unchanged. -/
theorem C4_stale_update_in_place (db : SyncDB) (now : Nat) (o r : OrderRow)
    (ho : o ∈ db.original_orders)
    (hno : (db.original_orders.map OrderRow.order_id).Nodup)
    (hr : r ∈ db.sample_orders)
    (hns : (db.sample_orders.map OrderRow.order_id).Nodup)
    (heq : r.order_id = o.order_id)
    (hcls : sqlInList o.m.order_type sampleOrderTypes = true) :
    (sync_sample_orders now db).2.sample_orders.filter
        (fun x => x.order_id == o.order_id)
      = [if (sqlGt o.updated_at r.updated_at || r.updated_at == none) = true
         then applySyncUpdate now o r else r] := by
  have hinj := List.inj_on_of_nodup_map hno
  have hfind : db.original_orders.find? (fun b => staleMatch sampleOrderTypes b r)
      = (if (sqlGt o.updated_at r.updated_at || r.updated_at == none) = true
         then some o else none) := by
    by_cases hst : (sqlGt o.updated_at r.updated_at || r.updated_at == none) = true
    · rw [if_pos hst]
      apply find?_eq_some_of_unique _ _ _ ho
      · simp [staleMatch, heq, hcls, hst]
      · intro b hb hpb
        have hbid : b.order_id = r.order_id := by
          have := hpb
          simp [staleMatch] at this
          simpa using this.1.1
        exact hinj hb ho (by rw [hbid, heq])
    · rw [if_neg hst]
      apply List.find?_eq_none.mpr
      intro b hb hpb
      have hbid : b.order_id = r.order_id := by
        simp [staleMatch] at hpb
        simpa using hpb.1.1
      have hbo : b = o := hinj hb ho (by rw [hbid, heq])
      subst hbo
      simp [staleMatch, heq, hcls] at hpb
      exact hst (by simpa using hpb)
  have hgid : ∀ x : OrderRow,
      (syncUpdateRow sampleOrderTypes now db.original_orders x).order_id
        = x.order_id := fun x =>
    updateRow_order_id sampleOrderTypes now db.original_orders x
  have hsingle : db.sample_orders.filter (fun x => x.order_id == o.order_id)
      = [r] :=
    filter_key_singleton OrderRow.order_id o.order_id db.sample_orders r hr heq hns
  have hform : (sync_sample_orders now db).2.sample_orders
      = (syncUpdatePhase sampleOrderTypes now db.original_orders db.sample_orders).1
        ++ db.original_orders.filter (fun o2 =>
            sqlInList o2.m.order_type sampleOrderTypes &&
            !((syncUpdatePhase sampleOrderTypes now db.original_orders
                db.sample_orders).1.any (fun x => x.order_id == o2.order_id))) := rfl
  rw [hform, List.filter_append]
  have hA : (syncUpdatePhase sampleOrderTypes now db.original_orders
        db.sample_orders).1.filter (fun x => x.order_id == o.order_id)
      = [syncUpdateRow sampleOrderTypes now db.original_orders r] := by
    show (db.sample_orders.map _).filter _ = _
    rw [filter_oid_map_comm _ _ _ hgid, hsingle]
    rfl
  have hupd : (syncUpdatePhase sampleOrderTypes now db.original_orders
        db.sample_orders).1.any (fun x => x.order_id == o.order_id) = true := by
    apply List.any_eq_true.mpr
    refine ⟨syncUpdateRow sampleOrderTypes now db.original_orders r, ?_, ?_⟩
    · exact List.mem_map_of_mem _ hr
    · rw [hgid r]
      simp [heq]
  have hB : (db.original_orders.filter (fun o2 =>
      sqlInList o2.m.order_type sampleOrderTypes &&
      !((syncUpdatePhase sampleOrderTypes now db.original_orders
          db.sample_orders).1.any (fun x => x.order_id == o2.order_id)))).filter
        (fun x => x.order_id == o.order_id) = [] := by
    apply List.filter_eq_nil_iff.mpr
    intro b hb hbid
    have hmem := List.mem_filter.mp hb
    have hbo : b = o := hinj hmem.1 ho (by simpa using hbid)
    subst hbo
    have := hmem.2
    rw [hupd] at this
    simp at this
  rw [hA, hB, List.append_nil]
  unfold syncUpdateRow
  rw [hfind]
  by_cases hst : (sqlGt o.updated_at r.updated_at || r.updated_at == none) = true
  · rw [if_pos hst, if_pos hst]
  · rw [if_neg hst, if_neg hst]

/-- C4 witness: the theorem applied to a concrete stale pair. -/
theorem C4_witness :
    (sync_sample_orders 7
      { original_orders := [⟨"S001", mkMirror (some "打样单"), 0, some 10⟩],
        sample_orders := [⟨"S001", mkMirror none, 0, some 5⟩],
        bulk_orders := [] }).2.sample_orders.filter
        (fun x => x.order_id == "S001")
      = [if (sqlGt (some 10) (some 5) || (some 5 : Option Nat) == none) = true
         then applySyncUpdate 7 ⟨"S001", mkMirror (some "打样单"), 0, some 10⟩
                ⟨"S001", mkMirror none, 0, some 5⟩
         else ⟨"S001", mkMirror none, 0, some 5⟩] :=
  C4_stale_update_in_place
    { original_orders := [⟨"S001", mkMirror (some "打样单"), 0, some 10⟩],
      sample_orders := [⟨"S001", mkMirror none, 0, some 5⟩],
      bulk_orders := [] }
    7 ⟨"S001", mkMirror (some "打样单"), 0, some 10⟩
    ⟨"S001", mkMirror none, 0, some 5⟩
    (by decide) (by decide) (by decide) (by decide) (by decide) (by decide)

/-! ### C3: idempotence of a second sync run -/

theorem staleMatch_self_false (types : List String) (o : OrderRow) (u : Nat)
    (hu : o.updated_at = some u) : staleMatch types o o = false := by
  simp [staleMatch, hu, sqlGt]

theorem syncTable_second_run (types : List String) (t1 t2 : Nat)
    (canonical typed : List OrderRow)
    (hno : (canonical.map OrderRow.order_id).Nodup)
    (hclk : ∀ o ∈ canonical, sqlInList o.m.order_type types = true →
        ∃ u, o.updated_at = some u ∧ u ≤ t1) :
    (syncTableRun types t2 canonical (syncTableRun types t1 canonical typed).1).1
      = (syncTableRun types t1 canonical typed).1 ∧
    (syncTableRun types t2 canonical (syncTableRun types t1 canonical typed).1).2
      = ⟨0, 0, 0⟩ := by
  have hinj := List.inj_on_of_nodup_map hno
  set T1 := (syncTableRun types t1 canonical typed).1 with hT1def
  have hT1eq : T1 = typed.map (syncUpdateRow types t1 canonical) ++
      canonical.filter (fun o => sqlInList o.m.order_type types &&
        !((typed.map (syncUpdateRow types t1 canonical)).any
          (fun r => r.order_id == o.order_id))) := by
    rw [hT1def]
    rfl
  have hnostale : ∀ r ∈ T1, ∀ o ∈ canonical, staleMatch types o r = false := by
    intro r hr o ho
    rw [hT1eq] at hr
    rcases List.mem_append.mp hr with hr1 | hr2
    · obtain ⟨x, hx, hgx⟩ := List.mem_map.mp hr1
      rcases hfind : canonical.find? (fun b => staleMatch types b x) with _ | o₀
      · have hrx : r = x := by
          rw [← hgx]
          unfold syncUpdateRow
          rw [hfind]
        subst hrx
        have := List.find?_eq_none.mp hfind o ho
        simpa using this
      · have ho₀ : o₀ ∈ canonical := List.mem_of_find?_eq_some hfind
        have hmatch : staleMatch types o₀ x = true := by
          have h := List.find?_some hfind
          simpa using h
        have hparts := hmatch
        simp only [staleMatch, Bool.and_eq_true] at hparts
        obtain ⟨⟨hid₀, hcls₀⟩, _⟩ := hparts
        obtain ⟨u, hu, hle⟩ := hclk o₀ ho₀ hcls₀
        have hrx : r = applySyncUpdate t1 o₀ x := by
          rw [← hgx]
          unfold syncUpdateRow
          rw [hfind]
        subst hrx
        cases hooid : (o.order_id == (applySyncUpdate t1 o₀ x).order_id) with
        | false => simp [staleMatch, hooid]
        | true =>
          have hoeq : o = o₀ := by
            apply hinj ho ho₀
            have h1 : o.order_id = x.order_id := by simpa using hooid
            have h2 : o₀.order_id = x.order_id := by simpa using hid₀
            rw [h1, h2]
          subst hoeq
          simp [staleMatch, applySyncUpdate, hu, sqlGt, Nat.not_lt.mpr hle]
    · have hmem := List.mem_filter.mp hr2
      have hcls : sqlInList r.m.order_type types = true := by
        have h := hmem.2
        simp only [Bool.and_eq_true] at h
        exact h.1
      obtain ⟨u, hu, _⟩ := hclk r hmem.1 hcls
      cases hooid : (o.order_id == r.order_id) with
      | false => simp [staleMatch, hooid]
      | true =>
        have hoeq : o = r := hinj ho hmem.1 (by simpa using hooid)
        subst hoeq
        exact staleMatch_self_false types o u hu
  have hfind2 : ∀ r ∈ T1, canonical.find? (fun o => staleMatch types o r) = none := by
    intro r hr
    apply List.find?_eq_none.mpr
    intro o ho
    simp [hnostale r hr o ho]
  have hmap2 : T1.map (syncUpdateRow types t2 canonical) = T1 := by
    have hid : ∀ r ∈ T1, syncUpdateRow types t2 canonical r = r := by
      intro r hr
      unfold syncUpdateRow
      rw [hfind2 r hr]
    calc T1.map (syncUpdateRow types t2 canonical)
        = T1.map id := List.map_congr_left hid
      _ = T1 := List.map_id T1
  have hcnt2 : T1.filter (fun r =>
      (canonical.find? (fun o => staleMatch types o r)).isSome) = [] := by
    apply List.filter_eq_nil_iff.mpr
    intro r hr hsome
    rw [hfind2 r hr] at hsome
    simp at hsome
  have hins2 : canonical.filter (fun o => sqlInList o.m.order_type types &&
      !((T1.map (syncUpdateRow types t2 canonical)).any
        (fun r => r.order_id == o.order_id))) = [] := by
    apply List.filter_eq_nil_iff.mpr
    intro o ho hpass
    rw [hmap2] at hpass
    rcases hcls : sqlInList o.m.order_type types with _ | _
    · rw [hcls] at hpass
      simp at hpass
    · have hany : T1.any (fun r => r.order_id == o.order_id) = true := by
        rcases hty : typed.any (fun r => r.order_id == o.order_id) with _ | _
        · apply List.any_eq_true.mpr
          refine ⟨o, ?_, by simp⟩
          rw [hT1eq]
          apply List.mem_append_right
          apply List.mem_filter.mpr
          refine ⟨ho, ?_⟩
          rw [hcls]
          have hmapany : (typed.map (syncUpdateRow types t1 canonical)).any
              (fun r => r.order_id == o.order_id) = false := by
            apply Bool.eq_false_iff.mpr
            intro hcon
            obtain ⟨y, hy, hyid⟩ := List.any_eq_true.mp hcon
            obtain ⟨x, hx, hgx⟩ := List.mem_map.mp hy
            have : x.order_id == o.order_id := by
              rw [← updateRow_order_id types t1 canonical x, hgx]
              exact hyid
            have : typed.any (fun r => r.order_id == o.order_id) = true :=
              List.any_eq_true.mpr ⟨x, hx, this⟩
            rw [hty] at this
            cases this
          rw [hmapany]
          rfl
        · obtain ⟨x, hx, hxid⟩ := List.any_eq_true.mp hty
          apply List.any_eq_true.mpr
          refine ⟨syncUpdateRow types t1 canonical x, ?_, ?_⟩
          · rw [hT1eq]
            exact List.mem_append_left _ (List.mem_map_of_mem _ hx)
          · rw [updateRow_order_id types t1 canonical x]
            exact hxid
      rw [hany] at hpass
      simp at hpass
  constructor
  · show T1.map (syncUpdateRow types t2 canonical) ++
      canonical.filter (fun o => sqlInList o.m.order_type types &&
        !((T1.map (syncUpdateRow types t2 canonical)).any
          (fun r => r.order_id == o.order_id))) = T1
    rw [hins2, List.append_nil, hmap2]
  · show (⟨(canonical.filter (fun o => sqlInList o.m.order_type types &&
        !((T1.map (syncUpdateRow types t2 canonical)).any
          (fun r => r.order_id == o.order_id)))).length,
      (T1.filter (fun r =>
        (canonical.find? (fun o => staleMatch types o r)).isSome)).length,
      0⟩ : SyncStats) = ⟨0, 0, 0⟩
    rw [hcnt2, hins2]
    rfl

/-- C3 counterexample: idempotence fails as universally stated.  With a
canonical order whose `updated_at` (10) lies in the future of both sync
clocks, the first call (at time 7) updates the stale typed row and stamps it
with 7, and the second call (at time 8) still sees `10 > 7` and updates it
again: the second call returns `{inserted: 0, updated: 1}`, not
`{inserted: 0, updated: 0}`. -/
theorem C3_counterexample :
    (sync_sample_orders 8 (sync_sample_orders 7
      { original_orders := [⟨"S001", mkMirror (some "打样单"), 0, some 10⟩],
        sample_orders := [⟨"S001", mkMirror none, 0, some 5⟩],
        bulk_orders := [] }).2).1 = ⟨0, 1, 0⟩ := by decide

/-- C3 (amended): when every canonical order classifying to the target has a
non-NULL `updated_at` that is not later than the first call's transaction
timestamp (the schema declares the column NOT NULL, and timestamps beyond the
sync clock arise only from clock skew), running sync twice with no
intervening canonical change performs zero writes on the second call and the
second call returns `{inserted: 0, updated: 0, errors: 0}` — for both the
sample and the bulk target. -/
theorem C3_sync_idempotent_amended (db : SyncDB) (t1 t2 s1 s2 : Nat)
    (hno : (db.original_orders.map OrderRow.order_id).Nodup)
    (hclkS : ∀ o ∈ db.original_orders,
        sqlInList o.m.order_type sampleOrderTypes = true →
        ∃ u, o.updated_at = some u ∧ u ≤ t1)
    (hclkB : ∀ o ∈ db.original_orders,
        sqlInList o.m.order_type bulkOrderTypes = true →
        ∃ u, o.updated_at = some u ∧ u ≤ s1) :
    (sync_sample_orders t2 (sync_sample_orders t1 db).2).1 = ⟨0, 0, 0⟩ ∧
    (sync_sample_orders t2 (sync_sample_orders t1 db).2).2
      = (sync_sample_orders t1 db).2 ∧
    (sync_bulk_orders s2 (sync_bulk_orders s1 db).2).1 = ⟨0, 0, 0⟩ ∧
    (sync_bulk_orders s2 (sync_bulk_orders s1 db).2).2
      = (sync_bulk_orders s1 db).2 := by
  have hS := syncTable_second_run sampleOrderTypes t1 t2 db.original_orders
    db.sample_orders hno hclkS
  have hB := syncTable_second_run bulkOrderTypes s1 s2 db.original_orders
    db.bulk_orders hno hclkB
  refine ⟨hS.2, ?_, hB.2, ?_⟩
  · show ({ (sync_sample_orders t1 db).2 with sample_orders :=
      (syncTableRun sampleOrderTypes t2 db.original_orders
        (syncTableRun sampleOrderTypes t1 db.original_orders
          db.sample_orders).1).1 } : SyncDB) = _
    rw [hS.1]
    rfl
  · show ({ (sync_bulk_orders s1 db).2 with bulk_orders :=
      (syncTableRun bulkOrderTypes s2 db.original_orders
        (syncTableRun bulkOrderTypes s1 db.original_orders
          db.bulk_orders).1).1 } : SyncDB) = _
    rw [hB.1]
    rfl

/-- C3 witness: the amended theorem applied to a concrete canonical table
with timestamps not exceeding the first sync clock. -/
theorem C3_witness :
    (sync_sample_orders 8 (sync_sample_orders 7
      { original_orders := [⟨"S001", mkMirror (some "打样单"), 0, some 5⟩,
                            ⟨"B001", mkMirror (some "新订单"), 0, some 6⟩],
        sample_orders := [],
        bulk_orders := [] }).2).1 = ⟨0, 0, 0⟩ ∧
    (sync_sample_orders 8 (sync_sample_orders 7
      { original_orders := [⟨"S001", mkMirror (some "打样单"), 0, some 5⟩,
                            ⟨"B001", mkMirror (some "新订单"), 0, some 6⟩],
        sample_orders := [],
        bulk_orders := [] }).2).2
      = (sync_sample_orders 7
      { original_orders := [⟨"S001", mkMirror (some "打样单"), 0, some 5⟩,
                            ⟨"B001", mkMirror (some "新订单"), 0, some 6⟩],
        sample_orders := [],
        bulk_orders := [] }).2 ∧
    (sync_bulk_orders 8 (sync_bulk_orders 7
      { original_orders := [⟨"S001", mkMirror (some "打样单"), 0, some 5⟩,
                            ⟨"B001", mkMirror (some "新订单"), 0, some 6⟩],
        sample_orders := [],
        bulk_orders := [] }).2).1 = ⟨0, 0, 0⟩ ∧
    (sync_bulk_orders 8 (sync_bulk_orders 7
      { original_orders := [⟨"S001", mkMirror (some "打样单"), 0, some 5⟩,
                            ⟨"B001", mkMirror (some "新订单"), 0, some 6⟩],
        sample_orders := [],
        bulk_orders := [] }).2).2
      = (sync_bulk_orders 7
      { original_orders := [⟨"S001", mkMirror (some "打样单"), 0, some 5⟩,
                            ⟨"B001", mkMirror (some "新订单"), 0, some 6⟩],
        sample_orders := [],
        bulk_orders := [] }).2 :=
  C3_sync_idempotent_amended
    { original_orders := [⟨"S001", mkMirror (some "打样单"), 0, some 5⟩,
                          ⟨"B001", mkMirror (some "新订单"), 0, some 6⟩],
      sample_orders := [],
      bulk_orders := [] }
    7 8 7 8 (by decide)
    (by
      intro o ho hcls
      fin_cases ho
      · exact ⟨5, rfl, by norm_num⟩
      · cases hcls)
    (by
      intro o ho hcls
      fin_cases ho
      · cases hcls
      · exact ⟨6, rfl, by norm_num⟩)

/-! ### Preservation lemmas for the customer-extraction pipeline -/

theorem foldl_preserves {α σ : Type} (f : σ → α → σ) (P : σ → Prop)
    (hf : ∀ s a, P s → P (f s a)) :
    ∀ (l : List α) (s : σ), P s → P (l.foldl f s) := by
  intro l
  induction l with
  | nil => intro s h; exact h
  | cons a t ih => intro s h; exact ih (f s a) (hf s a h)

theorem focs_conversions (n : String) (sh hd : Option String) (db : CDB)
    (st : CStats) :
    (find_or_create_sample_customer n sh hd db st).2.1.conversions
      = db.conversions := by
  unfold find_or_create_sample_customer
  split <;> (dsimp only; split <;> rfl)

theorem focb_conversions (n : String) (sh hd : Option String) (db : CDB)
    (st : CStats) :
    (find_or_create_bulk_customer n sh hd db st).2.1.conversions
      = db.conversions := by
  unfold find_or_create_bulk_customer
  split <;> (dsimp only; split <;> rfl)

theorem csor_conversions (cid : Nat) (o : TypedOrderRec) (db : CDB) :
    (create_sample_order_relation cid o db).1.conversions = db.conversions := by
  unfold create_sample_order_relation
  split <;> rfl

theorem cbor_conversions (cid : Nat) (o : TypedOrderRec) (db : CDB) :
    (create_bulk_order_relation cid o db).1.conversions = db.conversions := by
  unfold create_bulk_order_relation
  split <;> rfl

theorem pst_conversions (valid : List TypedOrderRec) (acc : CDB × CStats)
    (t : CTuple) :
    (processSampleTuple valid acc t).1.conversions = acc.1.conversions := by
  unfold processSampleTuple
  refine Eq.trans (foldl_preserves _
    (fun p : CDB × CStats => p.1.conversions = acc.1.conversions) ?_ _ _ ?_) rfl
  · intro p o hp
    exact (csor_conversions _ o p.1).trans hp
  · exact focs_conversions t.1 t.2.1 t.2.2 acc.1 acc.2

theorem pbt_conversions (valid : List TypedOrderRec) (acc : CDB × CStats)
    (t : CTuple) :
    (processBulkTuple valid acc t).1.conversions = acc.1.conversions := by
  unfold processBulkTuple
  refine Eq.trans (foldl_preserves _
    (fun p : CDB × CStats => p.1.conversions = acc.1.conversions) ?_ _ _ ?_) rfl
  · intro p o hp
    exact (cbor_conversions _ o p.1).trans hp
  · exact focb_conversions t.1 t.2.1 t.2.2 acc.1 acc.2

theorem extractSample_conversions (snapshot db : CDB) (st : CStats) :
    (extractFromSampleOrders snapshot db st).1.conversions = db.conversions := by
  unfold extractFromSampleOrders
  dsimp only
  split
  · rfl
  · exact foldl_preserves _
      (fun p : CDB × CStats => p.1.conversions = db.conversions)
      (fun p t hp => (pst_conversions _ p t).trans hp) _ (db, st) rfl

theorem extractBulk_conversions (snapshot db : CDB) (st : CStats) :
    (extractFromBulkOrders snapshot db st).1.conversions = db.conversions := by
  unfold extractFromBulkOrders
  dsimp only
  split
  · rfl
  · exact foldl_preserves _
      (fun p : CDB × CStats => p.1.conversions = db.conversions)
      (fun p t hp => (pbt_conversions _ p t).trans hp) _ (db, st) rfl

/-! ### C10 and C1: the missing `timezone` import -/

theorem nameDefined_timezone : nameDefined "timezone" = false := rfl

theorem convertsLoop_error_of_unlinked (now : Nat)
    (pairs : List (SampleCustomerRec × BulkCustomerRec)) (db : CDB) (st : CStats)
    (p : SampleCustomerRec × BulkCustomerRec) (hp : p ∈ pairs)
    (hnl : ∀ c ∈ db.conversions,
        ¬(c.sample_customer_id = p.1.id ∧ c.bulk_customer_id = p.2.id)) :
    ∃ msg, convertsLoop now pairs db st = Except.error msg := by
  induction pairs generalizing st with
  | nil => cases hp
  | cons q rest ih =>
    by_cases hq : db.conversions.any (fun c =>
        c.sample_customer_id == q.1.id && c.bulk_customer_id == q.2.id) = true
    · have hpr : p ∈ rest := by
        rcases List.mem_cons.mp hp with h | h
        · subst h
          exfalso
          obtain ⟨c, hc, hcb⟩ := List.any_eq_true.mp hq
          simp only [Bool.and_eq_true, beq_iff_eq] at hcb
          exact hnl c hc hcb
        · exact h
      obtain ⟨msg, hmsg⟩ := ih st hpr
      refine ⟨msg, ?_⟩
      unfold convertsLoop
      rw [hq]
      simpa using hmsg
    · refine ⟨"NameError: name timezone is not defined", ?_⟩
      have hany : db.conversions.any (fun c =>
          c.sample_customer_id == q.1.id && c.bulk_customer_id == q.2.id)
          = false := Bool.eq_false_iff.mpr hq
      unfold convertsLoop
      rw [hany]
      simp [nameDefined_timezone]

theorem identify_error_of_unlinked (now : Nat) (snapshot db : CDB) (st : CStats)
    (sc : SampleCustomerRec) (bc : BulkCustomerRec)
    (hsc : sc ∈ snapshot.sample_customers) (hbc : bc ∈ snapshot.bulk_customers)
    (hname : sc.customer_name = bc.customer_name)
    (hnl : ∀ c ∈ db.conversions,
        ¬(c.sample_customer_id = sc.id ∧ c.bulk_customer_id = bc.id)) :
    ∃ msg, identify_customer_conversions now snapshot db st
      = Except.error msg := by
  have hpair : (sc, bc) ∈ convPairs snapshot := by
    unfold convPairs
    apply List.mem_flatMap.mpr
    refine ⟨sc, hsc, ?_⟩
    apply List.mem_map_of_mem
    apply List.mem_filter.mpr
    exact ⟨hbc, by simp [hname]⟩
  have h1 : snapshot.sample_customers.isEmpty = false :=
    List.isEmpty_eq_false.mpr (List.ne_nil_of_mem hsc)
  have h2 : snapshot.bulk_customers.isEmpty = false :=
    List.isEmpty_eq_false.mpr (List.ne_nil_of_mem hbc)
  unfold identify_customer_conversions
  rw [h1, h2]
  simpa using convertsLoop_error_of_unlinked now (convPairs snapshot) db st
    (sc, bc) hpair hnl

theorem extractStep3_error (now : Nat) (committed : CDB) (b : CDB × CStats)
    (msg : String)
    (h : identify_customer_conversions now committed b.1 b.2
      = Except.error msg) :
    extractStep3 now committed b
      = (⟨b.2.new_sample + b.2.new_bulk, b.2.updated_sample + b.2.updated_bulk,
          b.2.sample_relations, b.2.bulk_relations, 1⟩, committed) := by
  unfold extractStep3
  rw [h]

/-- C10: `extract_customers_from_orders` is all-or-nothing on error, and the
conversion step raises a `NameError` (the name `timezone` in
`datetime.now(timezone.utc)` is never imported) whenever some
sample-customer/bulk-customer pair shares a `customer_name` and is not yet
linked by a `CustomerConversion` row.  Such a call commits nothing — the
committed state is returned unchanged — and its result has `errors = 1`. -/
theorem C10_extract_all_or_nothing (now : Nat) (s : CDB)
    (sc : SampleCustomerRec) (bc : BulkCustomerRec)
    (hsc : sc ∈ s.sample_customers) (hbc : bc ∈ s.bulk_customers)
    (hname : sc.customer_name = bc.customer_name)
    (hnl : ∀ c ∈ s.conversions,
        ¬(c.sample_customer_id = sc.id ∧ c.bulk_customer_id = bc.id)) :
    (extract_customers_from_orders now s).2 = s ∧
    (extract_customers_from_orders now s).1.errors = 1 := by
  have hconv2 : (extractFromBulkOrders s
      (extractFromSampleOrders s s CStats.zero).1
      (extractFromSampleOrders s s CStats.zero).2).1.conversions
      = s.conversions := by
    rw [extractBulk_conversions, extractSample_conversions]
  obtain ⟨msg, herr⟩ := identify_error_of_unlinked now s
    (extractFromBulkOrders s (extractFromSampleOrders s s CStats.zero).1
      (extractFromSampleOrders s s CStats.zero).2).1
    (extractFromBulkOrders s (extractFromSampleOrders s s CStats.zero).1
      (extractFromSampleOrders s s CStats.zero).2).2
    sc bc hsc hbc hname (by rw [hconv2]; exact hnl)
  unfold extract_customers_from_orders
  rw [extractStep3_error now s _ msg herr]
  exact ⟨rfl, rfl⟩

/-- C10 witness: the theorem applied to a concrete state with one
same-named, unlinked sample/bulk customer pair. -/
theorem C10_witness :
    (extract_customers_from_orders 100
      { emptyCDB with
        sample_customers :=
          [⟨7, "张三", some "淘宝", none, none, none, 0, 0, false, none, none⟩],
        bulk_customers :=
          [⟨9, "张三", some "淘宝", none, none, none, 0, 0, false, none⟩] }).2
      = { emptyCDB with
          sample_customers :=
            [⟨7, "张三", some "淘宝", none, none, none, 0, 0, false, none, none⟩],
          bulk_customers :=
            [⟨9, "张三", some "淘宝", none, none, none, 0, 0, false, none⟩] } ∧
    (extract_customers_from_orders 100
      { emptyCDB with
        sample_customers :=
          [⟨7, "张三", some "淘宝", none, none, none, 0, 0, false, none, none⟩],
        bulk_customers :=
          [⟨9, "张三", some "淘宝", none, none, none, 0, 0, false, none⟩] }).1.errors
      = 1 :=
  C10_extract_all_or_nothing 100
    { emptyCDB with
      sample_customers :=
        [⟨7, "张三", some "淘宝", none, none, none, 0, 0, false, none, none⟩],
      bulk_customers :=
        [⟨9, "张三", some "淘宝", none, none, none, 0, 0, false, none⟩] }
    ⟨7, "张三", some "淘宝", none, none, none, 0, 0, false, none, none⟩
    ⟨9, "张三", some "淘宝", none, none, none, 0, 0, false, none⟩
    (by decide) (by decide) (by decide) (by decide)

/-- C1: the claim describes the intended conversion-detection writes, but the
code cannot perform them: at the failing input — one SampleCustomer `张三`
and one BulkCustomer `张三` with no CustomerConversion row — the creation of
the conversion record evaluates `datetime.now(timezone.utc)` whose name
`timezone` is not imported, so a `NameError` aborts the whole call: no
conversion row is created, no flag is set, nothing is committed, and the
call returns `errors = 1`.  This theorem evaluates the model at that input. -/
theorem C1_timezone_bug_eval :
    extract_customers_from_orders 100
      { emptyCDB with
        sample_customers :=
          [⟨1, "张三", some "淘宝", none, none, none, 0, 0, false, none, none⟩],
        bulk_customers :=
          [⟨1, "张三", some "淘宝", none, none, none, 0, 0, false, none⟩] }
      = (⟨0, 0, 0, 0, 1⟩,
         { emptyCDB with
           sample_customers :=
             [⟨1, "张三", some "淘宝", none, none, none, 0, 0, false, none, none⟩],
           bulk_customers :=
             [⟨1, "张三", some "淘宝", none, none, none, 0, 0, false, none⟩] }) := by
  rfl

/-! ### C2: statistics recomputation -/

theorem mem_dedupFirst {α : Type} [DecidableEq α] (a : α) (l : List α) :
    a ∈ dedupFirst l ↔ a ∈ l := by
  induction l with
  | nil => simp [dedupFirst]
  | cons x xs ih =>
    simp only [dedupFirst, List.mem_cons, List.mem_filter, ih,
      decide_eq_true_eq]
    by_cases h : a = x <;> simp [h, ih]

theorem dedupFirst_nodup {α : Type} [DecidableEq α] (l : List α) :
    (dedupFirst l).Nodup := by
  induction l with
  | nil => exact List.nodup_nil
  | cons x xs ih =>
    apply List.nodup_cons.mpr
    constructor
    · intro hmem
      have h := (List.mem_filter.mp hmem).2
      simp at h
    · exact List.Nodup.filter _ ih

theorem sampleStatsFields_id (rels : List SampleRelationRec) (cid : Nat)
    (c : SampleCustomerRec) : (sampleStatsFields rels cid c).id = c.id := rfl

theorem sampleStatsFields_idem (rels : List SampleRelationRec) (cid : Nat)
    (c : SampleCustomerRec) :
    sampleStatsFields rels cid (sampleStatsFields rels cid c)
      = sampleStatsFields rels cid c := rfl

theorem foldl_updateById (rels : List SampleRelationRec) (ids : List Nat)
    (cs : List SampleCustomerRec) :
    ids.foldl (fun d cid => d.map (fun c =>
        if c.id == cid then sampleStatsFields rels cid c else c)) cs
      = cs.map (fun c =>
        if c.id ∈ ids then sampleStatsFields rels c.id c else c) := by
  induction ids generalizing cs with
  | nil => simp
  | cons i is ih =>
    rw [List.foldl_cons, ih, List.map_map]
    apply List.map_congr_left
    intro c _
    show (fun c => if c.id ∈ is then sampleStatsFields rels c.id c else c)
        (if c.id == i then sampleStatsFields rels i c else c)
      = if c.id ∈ i :: is then sampleStatsFields rels c.id c else c
    by_cases h1 : c.id = i
    · subst h1
      by_cases h2 : c.id ∈ is <;>
        simp [h2, sampleStatsFields_id, sampleStatsFields_idem]
    · have hbe : (c.id == i) = false := by simpa using h1
      by_cases h2 : c.id ∈ is <;> simp [hbe, h1, h2]

theorem statsFold_cdb (rels : List SampleRelationRec) (ids : List Nat)
    (db : CDB) :
    ids.foldl (fun d cid =>
        { d with sample_customers := d.sample_customers.map (fun c =>
            if c.id == cid then sampleStatsFields rels cid c else c) }) db
      = { db with sample_customers :=
          (ids.foldl (fun cs cid => cs.map (fun c =>
            if c.id == cid then sampleStatsFields rels cid c else c))
            db.sample_customers) } := by
  induction ids generalizing db with
  | nil => rfl
  | cons i is ih =>
    rw [List.foldl_cons, List.foldl_cons, ih]

theorem update_sample_stats_eq_map (snapshot db : CDB) :
    update_sample_customer_stats snapshot db
      = { db with sample_customers := db.sample_customers.map (fun c =>
          if c.id ∈ (qualifyingSampleRelations snapshot).map
              (fun r => r.sample_customer_id)
          then sampleStatsFields (qualifyingSampleRelations snapshot) c.id c
          else c) } := by
  unfold update_sample_customer_stats
  dsimp only
  split
  · next h =>
    have hnil : qualifyingSampleRelations snapshot = [] := by
      simpa using h
    rw [hnil]
    simp
  · next h =>
    rw [statsFold_cdb, foldl_updateById]
    simp only [mem_dedupFirst]

/-- C2 counterexample: a customer with exactly one association row whose
amount is NULL.  The stats query excludes the row entirely (`WHERE
order_date IS NOT NULL AND amount IS NOT NULL`), so after
`recompute_statistics` the stored `sample_orders_count` is still 0 — not 1 as
the claim (null amounts excluded from the sum only, not from the count)
requires: the customer row is returned entirely unchanged. -/
theorem C2_counterexample :
    (CDB.sample_relations
      { emptyCDB with
        sample_customers :=
          [⟨1, "张三", none, none, none, none, 0, 0, false, none, none⟩],
        sample_relations := [⟨1, "S001", some 5, none⟩] }).length = 1 ∧
    (recompute_sample_statistics
      { emptyCDB with
        sample_customers :=
          [⟨1, "张三", none, none, none, none, 0, 0, false, none, none⟩],
        sample_relations := [⟨1, "S001", some 5, none⟩] }).sample_customers
      = [⟨1, "张三", none, none, none, none, 0, 0, false, none, none⟩] :=
  ⟨rfl, rfl⟩

/-! ### C6: no duplicate associations -/

theorem csor_relkeys (cid : Nat) (o : TypedOrderRec) (db : CDB)
    (h : ((db.sample_relations.map
      (fun r => (r.sample_customer_id, r.order_id))).Nodup)) :
    (((create_sample_order_relation cid o db).1.sample_relations.map
      (fun r => (r.sample_customer_id, r.order_id))).Nodup) := by
  unfold create_sample_order_relation
  split
  · exact h
  · next hany =>
    rw [List.map_append]
    apply List.Nodup.append h (List.nodup_singleton _)
    intro k hk1 hk2
    obtain ⟨r, hr, hkey⟩ := List.mem_map.mp hk1
    have hk2e : k = (cid, o.order_id) := by simpa using hk2
    have : db.sample_relations.any (fun r =>
        r.sample_customer_id == cid && r.order_id == o.order_id) = true := by
      apply List.any_eq_true.mpr
      refine ⟨r, hr, ?_⟩
      have h1 : r.sample_customer_id = cid := by
        have := congrArg Prod.fst hkey
        simpa [hk2e] using this
      have h2 : r.order_id = o.order_id := by
        have := congrArg Prod.snd hkey
        simpa [hk2e] using this
      simp [h1, h2]
    rw [this] at hany
    exact hany rfl

theorem cbor_relkeys (cid : Nat) (o : TypedOrderRec) (db : CDB)
    (h : ((db.bulk_relations.map
      (fun r => (r.bulk_customer_id, r.order_id))).Nodup)) :
    (((create_bulk_order_relation cid o db).1.bulk_relations.map
      (fun r => (r.bulk_customer_id, r.order_id))).Nodup) := by
  unfold create_bulk_order_relation
  split
  · exact h
  · next hany =>
    rw [List.map_append]
    apply List.Nodup.append h (List.nodup_singleton _)
    intro k hk1 hk2
    obtain ⟨r, hr, hkey⟩ := List.mem_map.mp hk1
    have hk2e : k = (cid, o.order_id) := by simpa using hk2
    have : db.bulk_relations.any (fun r =>
        r.bulk_customer_id == cid && r.order_id == o.order_id) = true := by
      apply List.any_eq_true.mpr
      refine ⟨r, hr, ?_⟩
      have h1 : r.bulk_customer_id = cid := by
        have := congrArg Prod.fst hkey
        simpa [hk2e] using this
      have h2 : r.order_id = o.order_id := by
        have := congrArg Prod.snd hkey
        simpa [hk2e] using this
      simp [h1, h2]
    rw [this] at hany
    exact hany rfl

theorem csor_bulk_unchanged (cid : Nat) (o : TypedOrderRec) (db : CDB) :
    (create_sample_order_relation cid o db).1.bulk_relations
      = db.bulk_relations := by
  unfold create_sample_order_relation
  split <;> rfl

theorem cbor_sample_unchanged (cid : Nat) (o : TypedOrderRec) (db : CDB) :
    (create_bulk_order_relation cid o db).1.sample_relations
      = db.sample_relations := by
  unfold create_bulk_order_relation
  split <;> rfl

theorem focs_relations (n : String) (sh hd : Option String) (db : CDB)
    (st : CStats) :
    (find_or_create_sample_customer n sh hd db st).2.1.sample_relations
        = db.sample_relations ∧
    (find_or_create_sample_customer n sh hd db st).2.1.bulk_relations
        = db.bulk_relations := by
  unfold find_or_create_sample_customer
  split <;> (dsimp only; split <;> exact ⟨rfl, rfl⟩)

theorem focb_relations (n : String) (sh hd : Option String) (db : CDB)
    (st : CStats) :
    (find_or_create_bulk_customer n sh hd db st).2.1.sample_relations
        = db.sample_relations ∧
    (find_or_create_bulk_customer n sh hd db st).2.1.bulk_relations
        = db.bulk_relations := by
  unfold find_or_create_bulk_customer
  split <;> (dsimp only; split <;> exact ⟨rfl, rfl⟩)

theorem pst_relkeys (valid : List TypedOrderRec) (acc : CDB × CStats)
    (t : CTuple) (h : relKeysNodup acc.1) :
    relKeysNodup (processSampleTuple valid acc t).1 := by
  unfold processSampleTuple
  refine foldl_preserves _ (fun p : CDB × CStats => relKeysNodup p.1) ?_ _ _ ?_
  · intro p o hp
    exact ⟨csor_relkeys _ o p.1 hp.1,
      (csor_bulk_unchanged _ o p.1) ▸ hp.2⟩
  · have hr := focs_relations t.1 t.2.1 t.2.2 acc.1 acc.2
    exact ⟨hr.1 ▸ h.1, hr.2 ▸ h.2⟩

theorem pbt_relkeys (valid : List TypedOrderRec) (acc : CDB × CStats)
    (t : CTuple) (h : relKeysNodup acc.1) :
    relKeysNodup (processBulkTuple valid acc t).1 := by
  unfold processBulkTuple
  refine foldl_preserves _ (fun p : CDB × CStats => relKeysNodup p.1) ?_ _ _ ?_
  · intro p o hp
    exact ⟨(cbor_sample_unchanged _ o p.1) ▸ hp.1,
      cbor_relkeys _ o p.1 hp.2⟩
  · have hr := focb_relations t.1 t.2.1 t.2.2 acc.1 acc.2
    exact ⟨hr.1 ▸ h.1, hr.2 ▸ h.2⟩

theorem extractSample_relkeys (snapshot db : CDB) (st : CStats)
    (h : relKeysNodup db) :
    relKeysNodup (extractFromSampleOrders snapshot db st).1 := by
  unfold extractFromSampleOrders
  dsimp only
  split
  · exact h
  · exact foldl_preserves _ (fun p : CDB × CStats => relKeysNodup p.1)
      (fun p t hp => pst_relkeys _ p t hp) _ (db, st) h

theorem extractBulk_relkeys (snapshot db : CDB) (st : CStats)
    (h : relKeysNodup db) :
    relKeysNodup (extractFromBulkOrders snapshot db st).1 := by
  unfold extractFromBulkOrders
  dsimp only
  split
  · exact h
  · exact foldl_preserves _ (fun p : CDB × CStats => relKeysNodup p.1)
      (fun p t hp => pbt_relkeys _ p t hp) _ (db, st) h

theorem convertsLoop_ok_relations (now : Nat)
    (pairs : List (SampleCustomerRec × BulkCustomerRec)) (db : CDB)
    (st : CStats) (res : CDB × CStats)
    (h : convertsLoop now pairs db st = Except.ok res) :
    res.1.sample_relations = db.sample_relations ∧
    res.1.bulk_relations = db.bulk_relations := by
  induction pairs generalizing db st with
  | nil =>
    unfold convertsLoop at h
    injection h with h2
    subst h2
    exact ⟨rfl, rfl⟩
  | cons q rest ih =>
    unfold convertsLoop at h
    split at h
    · exact ih _ _ h
    · split at h
      · have h2 := ih _ _ h
        exact h2
      · cases h

theorem identify_ok_relations (now : Nat) (snapshot db : CDB) (st : CStats)
    (res : CDB × CStats)
    (h : identify_customer_conversions now snapshot db st = Except.ok res) :
    res.1.sample_relations = db.sample_relations ∧
    res.1.bulk_relations = db.bulk_relations := by
  unfold identify_customer_conversions at h
  split at h
  · injection h with h2
    subst h2
    exact ⟨rfl, rfl⟩
  · exact convertsLoop_ok_relations now _ db st res h

theorem bulkStatsFields_id (rels : List BulkRelationRec) (cid : Nat)
    (c : BulkCustomerRec) : (bulkStatsFields rels cid c).id = c.id := rfl

theorem bulkStatsFields_idem (rels : List BulkRelationRec) (cid : Nat)
    (c : BulkCustomerRec) :
    bulkStatsFields rels cid (bulkStatsFields rels cid c)
      = bulkStatsFields rels cid c := rfl

theorem foldl_updateById_bulk (rels : List BulkRelationRec) (ids : List Nat)
    (cs : List BulkCustomerRec) :
    ids.foldl (fun d cid => d.map (fun c =>
        if c.id == cid then bulkStatsFields rels cid c else c)) cs
      = cs.map (fun c =>
        if c.id ∈ ids then bulkStatsFields rels c.id c else c) := by
  induction ids generalizing cs with
  | nil => simp
  | cons i is ih =>
    rw [List.foldl_cons, ih, List.map_map]
    apply List.map_congr_left
    intro c _
    show (fun c => if c.id ∈ is then bulkStatsFields rels c.id c else c)
        (if c.id == i then bulkStatsFields rels i c else c)
      = if c.id ∈ i :: is then bulkStatsFields rels c.id c else c
    by_cases h1 : c.id = i
    · subst h1
      by_cases h2 : c.id ∈ is <;>
        simp [h2, bulkStatsFields_id, bulkStatsFields_idem]
    · have hbe : (c.id == i) = false := by simpa using h1
      by_cases h2 : c.id ∈ is <;> simp [hbe, h1, h2]

theorem statsFold_cdb_bulk (rels : List BulkRelationRec) (ids : List Nat)
    (db : CDB) :
    ids.foldl (fun d cid =>
        { d with bulk_customers := d.bulk_customers.map (fun c =>
            if c.id == cid then bulkStatsFields rels cid c else c) }) db
      = { db with bulk_customers :=
          (ids.foldl (fun cs cid => cs.map (fun c =>
            if c.id == cid then bulkStatsFields rels cid c else c))
            db.bulk_customers) } := by
  induction ids generalizing db with
  | nil => rfl
  | cons i is ih =>
    rw [List.foldl_cons, List.foldl_cons, ih]

theorem update_bulk_stats_eq_map (snapshot db : CDB) :
    update_bulk_customer_stats snapshot db
      = { db with bulk_customers := db.bulk_customers.map (fun c =>
          if c.id ∈ (qualifyingBulkRelations snapshot).map
              (fun r => r.bulk_customer_id)
          then bulkStatsFields (qualifyingBulkRelations snapshot) c.id c
          else c) } := by
  unfold update_bulk_customer_stats
  dsimp only
  split
  · next h =>
    have hnil : qualifyingBulkRelations snapshot = [] := by
      simpa using h
    rw [hnil]
    simp
  · next h =>
    rw [statsFold_cdb_bulk, foldl_updateById_bulk]
    simp only [mem_dedupFirst]

theorem updSampleStats_relations (snapshot db : CDB) :
    (update_sample_customer_stats snapshot db).sample_relations
      = db.sample_relations ∧
    (update_sample_customer_stats snapshot db).bulk_relations
      = db.bulk_relations := by
  rw [update_sample_stats_eq_map]
  exact ⟨rfl, rfl⟩

theorem updBulkStats_relations (snapshot db : CDB) :
    (update_bulk_customer_stats snapshot db).sample_relations
      = db.sample_relations ∧
    (update_bulk_customer_stats snapshot db).bulk_relations
      = db.bulk_relations := by
  rw [update_bulk_stats_eq_map]
  exact ⟨rfl, rfl⟩

/-- C2 (amended): after `recompute_statistics` for a registry — sample and
bulk alike — every customer with at least one association row having BOTH a
non-null order_date and a non-null amount carries: orders_count = the number
of such fully non-null rows, total_amount = the sum of their amounts,
first/last date = min/max of their order_dates.  Rows with a null amount or
a null order_date are excluded from all four aggregates (not only from the
sum), and a customer with no qualifying row is left entirely unchanged. -/
theorem C2_stats_amended (db : CDB) :
    (∀ c ∈ db.sample_customers,
      ((qualifyingSampleRelations db).filter
          (fun r => r.sample_customer_id == c.id) = [] →
        c ∈ (recompute_sample_statistics db).sample_customers) ∧
      ((qualifyingSampleRelations db).filter
          (fun r => r.sample_customer_id == c.id) ≠ [] →
        { c with
          sample_orders_count := ((qualifyingSampleRelations db).filter
            (fun r => r.sample_customer_id == c.id)).length,
          total_sample_amount := (((qualifyingSampleRelations db).filter
            (fun r => r.sample_customer_id == c.id)).map
              (fun r => r.amount.getD 0)).sum,
          first_sample_date := (((qualifyingSampleRelations db).filter
            (fun r => r.sample_customer_id == c.id)).map
              (fun r => r.order_date.getD 0)).min?,
          last_sample_date := (((qualifyingSampleRelations db).filter
            (fun r => r.sample_customer_id == c.id)).map
              (fun r => r.order_date.getD 0)).max? }
          ∈ (recompute_sample_statistics db).sample_customers)) ∧
    (∀ c ∈ db.bulk_customers,
      ((qualifyingBulkRelations db).filter
          (fun r => r.bulk_customer_id == c.id) = [] →
        c ∈ (recompute_bulk_statistics db).bulk_customers) ∧
      ((qualifyingBulkRelations db).filter
          (fun r => r.bulk_customer_id == c.id) ≠ [] →
        { c with
          bulk_orders_count := ((qualifyingBulkRelations db).filter
            (fun r => r.bulk_customer_id == c.id)).length,
          total_bulk_amount := (((qualifyingBulkRelations db).filter
            (fun r => r.bulk_customer_id == c.id)).map
              (fun r => r.amount.getD 0)).sum,
          first_bulk_date := (((qualifyingBulkRelations db).filter
            (fun r => r.bulk_customer_id == c.id)).map
              (fun r => r.order_date.getD 0)).min?,
          last_bulk_date := (((qualifyingBulkRelations db).filter
            (fun r => r.bulk_customer_id == c.id)).map
              (fun r => r.order_date.getD 0)).max? }
          ∈ (recompute_bulk_statistics db).bulk_customers)) := by
  constructor
  · intro c hc
    have hrw : (recompute_sample_statistics db).sample_customers
        = db.sample_customers.map (fun c =>
            if c.id ∈ (qualifyingSampleRelations db).map
                (fun r => r.sample_customer_id)
            then sampleStatsFields (qualifyingSampleRelations db) c.id c
            else c) := by
      show (update_sample_customer_stats db db).sample_customers = _
      rw [update_sample_stats_eq_map]
    constructor
    · intro hq
      have hnotmem : ¬ c.id ∈ (qualifyingSampleRelations db).map
          (fun r => r.sample_customer_id) := by
        intro hmem
        obtain ⟨r, hr, hrid⟩ := List.mem_map.mp hmem
        have hrin : r ∈ (qualifyingSampleRelations db).filter
            (fun r => r.sample_customer_id == c.id) :=
          List.mem_filter.mpr ⟨hr, by simp [hrid]⟩
        rw [hq] at hrin
        cases hrin
      have hmem2 := List.mem_map_of_mem (fun x : SampleCustomerRec =>
          if x.id ∈ (qualifyingSampleRelations db).map
              (fun r => r.sample_customer_id)
          then sampleStatsFields (qualifyingSampleRelations db) x.id x
          else x) hc
      dsimp only at hmem2
      rw [if_neg hnotmem] at hmem2
      rw [hrw]
      exact hmem2
    · intro hq
      obtain ⟨r, hr⟩ := List.exists_mem_of_ne_nil _ hq
      have hrq := List.mem_filter.mp hr
      have hmem : c.id ∈ (qualifyingSampleRelations db).map
          (fun r => r.sample_customer_id) := by
        apply List.mem_map.mpr
        exact ⟨r, hrq.1, by simpa using hrq.2⟩
      have hmem2 := List.mem_map_of_mem (fun x : SampleCustomerRec =>
          if x.id ∈ (qualifyingSampleRelations db).map
              (fun r => r.sample_customer_id)
          then sampleStatsFields (qualifyingSampleRelations db) x.id x
          else x) hc
      dsimp only at hmem2
      rw [if_pos hmem] at hmem2
      rw [hrw]
      exact hmem2
  · intro c hc
    have hrw : (recompute_bulk_statistics db).bulk_customers
        = db.bulk_customers.map (fun c =>
            if c.id ∈ (qualifyingBulkRelations db).map
                (fun r => r.bulk_customer_id)
            then bulkStatsFields (qualifyingBulkRelations db) c.id c
            else c) := by
      show (update_bulk_customer_stats db db).bulk_customers = _
      rw [update_bulk_stats_eq_map]
    constructor
    · intro hq
      have hnotmem : ¬ c.id ∈ (qualifyingBulkRelations db).map
          (fun r => r.bulk_customer_id) := by
        intro hmem
        obtain ⟨r, hr, hrid⟩ := List.mem_map.mp hmem
        have hrin : r ∈ (qualifyingBulkRelations db).filter
            (fun r => r.bulk_customer_id == c.id) :=
          List.mem_filter.mpr ⟨hr, by simp [hrid]⟩
        rw [hq] at hrin
        cases hrin
      have hmem2 := List.mem_map_of_mem (fun x : BulkCustomerRec =>
          if x.id ∈ (qualifyingBulkRelations db).map
              (fun r => r.bulk_customer_id)
          then bulkStatsFields (qualifyingBulkRelations db) x.id x
          else x) hc
      dsimp only at hmem2
      rw [if_neg hnotmem] at hmem2
      rw [hrw]
      exact hmem2
    · intro hq
      obtain ⟨r, hr⟩ := List.exists_mem_of_ne_nil _ hq
      have hrq := List.mem_filter.mp hr
      have hmem : c.id ∈ (qualifyingBulkRelations db).map
          (fun r => r.bulk_customer_id) := by
        apply List.mem_map.mpr
        exact ⟨r, hrq.1, by simpa using hrq.2⟩
      have hmem2 := List.mem_map_of_mem (fun x : BulkCustomerRec =>
          if x.id ∈ (qualifyingBulkRelations db).map
              (fun r => r.bulk_customer_id)
          then bulkStatsFields (qualifyingBulkRelations db) x.id x
          else x) hc
      dsimp only at hmem2
      rw [if_pos hmem] at hmem2
      rw [hrw]
      exact hmem2

/-- C2 witness: the amended theorem at a concrete two-registry state — one
sample customer with one fully non-null association row (date 5, amount 37)
and one bulk customer with one fully non-null association row (date 6,
amount 41): after recomputation the stored sample row carries count 1, total
37, first and last date 5, and the stored bulk row carries count 1, total
41, first and last date 6. -/
theorem C2_witness :
    sampleStatsFields (qualifyingSampleRelations statsWitnessCDB) 1
      ⟨1, "张三", none, none, none, none, 0, 0, false, none, none⟩
      ∈ (recompute_sample_statistics statsWitnessCDB).sample_customers ∧
    bulkStatsFields (qualifyingBulkRelations statsWitnessCDB) 1
      ⟨1, "张三", none, none, none, none, 0, 0, false, none⟩
      ∈ (recompute_bulk_statistics statsWitnessCDB).bulk_customers :=
  ⟨((C2_stats_amended statsWitnessCDB).1
      ⟨1, "张三", none, none, none, none, 0, 0, false, none, none⟩
      (by decide)).2 (by decide),
   ((C2_stats_amended statsWitnessCDB).2
      ⟨1, "张三", none, none, none, none, 0, 0, false, none⟩
      (by decide)).2 (by decide)⟩

theorem extractStep3_ok (now : Nat) (committed : CDB) (b : CDB × CStats)
    (r : CDB × CStats)
    (h : identify_customer_conversions now committed b.1 b.2 = Except.ok r) :
    extractStep3 now committed b
      = (⟨r.2.new_sample + r.2.new_bulk, r.2.updated_sample + r.2.updated_bulk,
          r.2.sample_relations, r.2.bulk_relations, 0⟩,
         update_bulk_customer_stats committed
           (update_sample_customer_stats committed r.1)) := by
  unfold extractStep3
  rw [h]

theorem extract_preserves_relKeys (now : Nat) (s : CDB)
    (h : relKeysNodup s) :
    relKeysNodup (extract_customers_from_orders now s).2 := by
  have hA := extractSample_relkeys s s CStats.zero h
  have hB := extractBulk_relkeys s
    (extractFromSampleOrders s s CStats.zero).1
    (extractFromSampleOrders s s CStats.zero).2 hA
  unfold extract_customers_from_orders
  rcases hid : identify_customer_conversions now s
      (extractFromBulkOrders s (extractFromSampleOrders s s CStats.zero).1
        (extractFromSampleOrders s s CStats.zero).2).1
      (extractFromBulkOrders s (extractFromSampleOrders s s CStats.zero).1
        (extractFromSampleOrders s s CStats.zero).2).2 with _ | r
  · rw [extractStep3_error now s _ _ hid]
    exact h
  · rw [extractStep3_ok now s _ r hid]
    have hrel := identify_ok_relations now s _ _ r hid
    have h1 := updSampleStats_relations s r.1
    have h2 := updBulkStats_relations s (update_sample_customer_stats s r.1)
    constructor
    · show ((update_bulk_customer_stats s
        (update_sample_customer_stats s r.1)).sample_relations.map _).Nodup
      rw [h2.1, h1.1, hrel.1]
      exact hB.1
    · show ((update_bulk_customer_stats s
        (update_sample_customer_stats s r.1)).bulk_relations.map _).Nodup
      rw [h2.2, h1.2, hrel.2]
      exact hB.2

/-- C6: after any number of customer-extraction runs over any state whose
association tables already satisfy the at-most-one-association-per
`(customer_id, order_id)` invariant, both association tables still satisfy
it: re-processing the same order for the same customer never duplicates the
link (the existence check inside `_create_sample_order_relation` /
`_create_bulk_order_relation` guards every insert). -/
theorem C6_no_duplicate_associations (s : CDB) (times : List Nat)
    (h : relKeysNodup s) :
    relKeysNodup (runExtracts s times) := by
  induction times generalizing s with
  | nil => exact h
  | cons t ts ih =>
    have hstep := extract_preserves_relKeys t s h
    exact ih _ hstep

/-- C6 witness: three consecutive extraction runs over a concrete state with
orders, customers and an existing association. -/
theorem C6_witness :
    relKeysNodup (runExtracts
      { emptyCDB with
        sample_orders :=
          [⟨1, "S001", some "张三", some "淘宝", some "h", some 3, 4, some 10⟩],
        sample_customers :=
          [⟨1, "张三", some "淘宝", none, none, none, 0, 0, false, none, none⟩],
        sample_relations := [⟨1, "S001", some 3, some 10⟩],
        next_sample_id := 2 }
      [1, 2, 3]) :=
  C6_no_duplicate_associations
    { emptyCDB with
      sample_orders :=
        [⟨1, "S001", some "张三", some "淘宝", some "h", some 3, 4, some 10⟩],
      sample_customers :=
        [⟨1, "张三", some "淘宝", none, none, none, 0, 0, false, none, none⟩],
      sample_relations := [⟨1, "S001", some 3, some 10⟩],
      next_sample_id := 2 }
    [1, 2, 3] (by constructor <;> decide)

/-! ### C8: a tuple failure aborts the whole extraction -/

/-- C8 counterexample: two orders for customers `甲` and `乙`; a database
error strikes while processing the second tuple (`乙`), after customer `甲`
and its association were already written in this run.  The claim requires
the failure to be caught per tuple, processing to continue, and `甲`'s
writes to survive; instead the single call-level handler rolls back the
whole call: the final state equals the initial one — no customer row at all
— while the same run without the fault creates two customers. -/
theorem C8_counterexample :
    (extract_customers_from_orders_f (fun t => t.1 == "乙") 0
      { emptyCDB with sample_orders :=
        [⟨1, "S1", some "甲", some "A", some "h", none, 0, some 10⟩,
         ⟨2, "S2", some "乙", some "B", some "h", none, 0, some 20⟩] }).2
      = { emptyCDB with sample_orders :=
        [⟨1, "S1", some "甲", some "A", some "h", none, 0, some 10⟩,
         ⟨2, "S2", some "乙", some "B", some "h", none, 0, some 20⟩] } ∧
    (CDB.sample_customers
      (extract_customers_from_orders_f (fun t => t.1 == "乙") 0
        { emptyCDB with sample_orders :=
          [⟨1, "S1", some "甲", some "A", some "h", none, 0, some 10⟩,
           ⟨2, "S2", some "乙", some "B", some "h", none, 0, some 20⟩] }).2).length
      = 0 ∧
    (extract_customers_from_orders_f (fun t => t.1 == "乙") 0
      { emptyCDB with sample_orders :=
        [⟨1, "S1", some "甲", some "A", some "h", none, 0, some 10⟩,
         ⟨2, "S2", some "乙", some "B", some "h", none, 0, some 20⟩] }).1.errors
      = 1 ∧
    (CDB.sample_customers
      (extract_customers_from_orders_f (fun _ => false) 0
        { emptyCDB with sample_orders :=
          [⟨1, "S1", some "甲", some "A", some "h", none, 0, some 10⟩,
           ⟨2, "S2", some "乙", some "B", some "h", none, 0, some 20⟩] }).2).length
      = 2 :=
  ⟨rfl, rfl, rfl, rfl⟩

/-- C8 (amended): a failure while processing one customer tuple is NOT caught
inside the tuple loop — it propagates to the single try/except around the
whole of `extract_customers_from_orders`: the session is rolled back, so
every write of the call (including those for tuples already processed) is
discarded, the remaining tuples are not processed, and the call returns the
counters accumulated so far with `errors = 1`. -/
theorem C8_tuple_failure_aborts_call (fail : CTuple → Bool) (now : Nat)
    (s : CDB) (st : CStats)
    (h : extractFromSampleOrdersE fail s s CStats.zero = Except.error st) :
    (extract_customers_from_orders_f fail now s).2 = s ∧
    (extract_customers_from_orders_f fail now s).1.errors = 1 := by
  unfold extract_customers_from_orders_f
  rw [h]
  exact ⟨rfl, rfl⟩

/-- C8 witness: the amended theorem at the concrete two-tuple state with a
fault on the second tuple. -/
theorem C8_witness :
    (extract_customers_from_orders_f (fun t => t.1 == "乙") 5
      { emptyCDB with sample_orders :=
        [⟨1, "S1", some "甲", some "A", some "h", none, 0, some 10⟩,
         ⟨2, "S2", some "乙", some "B", some "h", none, 0, some 20⟩] }).2
      = { emptyCDB with sample_orders :=
        [⟨1, "S1", some "甲", some "A", some "h", none, 0, some 10⟩,
         ⟨2, "S2", some "乙", some "B", some "h", none, 0, some 20⟩] } ∧
    (extract_customers_from_orders_f (fun t => t.1 == "乙") 5
      { emptyCDB with sample_orders :=
        [⟨1, "S1", some "甲", some "A", some "h", none, 0, some 10⟩,
         ⟨2, "S2", some "乙", some "B", some "h", none, 0, some 20⟩] }).1.errors
      = 1 :=
  C8_tuple_failure_aborts_call (fun t => t.1 == "乙") 5
    { emptyCDB with sample_orders :=
      [⟨1, "S1", some "甲", some "A", some "h", none, 0, some 10⟩,
       ⟨2, "S2", some "乙", some "B", some "h", none, 0, some 20⟩] }
    ⟨1, 0, 0, 0, 1, 0, 0, 0⟩ rfl

/-! ### C5: distinct customers versus distinct (name, shop) pairs -/

theorem focs_reg (n : String) (sh hd : Option String) (db : CDB) (st : CStats)
    (hsh : truthyStr sh = true)
    (hpn : (db.sample_customers.map pairOf).Nodup)
    (hsc : ∀ c ∈ db.sample_customers, truthyStr c.shop = true)
    (hidn : (db.sample_customers.map SampleCustomerRec.id).Nodup)
    (hlt : ∀ c ∈ db.sample_customers, c.id < db.next_sample_id) :
    (((find_or_create_sample_customer n sh hd db st).2.1.sample_customers.map
      pairOf).Nodup) ∧
    (∀ c ∈ (find_or_create_sample_customer n sh hd db st).2.1.sample_customers,
      truthyStr c.shop = true) ∧
    (((find_or_create_sample_customer n sh hd db st).2.1.sample_customers.map
      SampleCustomerRec.id).Nodup) ∧
    (∀ c ∈ (find_or_create_sample_customer n sh hd db st).2.1.sample_customers,
      c.id < (find_or_create_sample_customer n sh hd db st).2.1.next_sample_id) ∧
    (∀ p, p ∈ (find_or_create_sample_customer n sh hd db st).2.1.sample_customers.map
        pairOf ↔ p ∈ db.sample_customers.map pairOf ∨ p = (n, sh)) ∧
    (find_or_create_sample_customer n sh hd db st).2.1.sample_orders
      = db.sample_orders := by
  have hinj := List.inj_on_of_nodup_map hidn
  unfold find_or_create_sample_customer
  split
  · dsimp only
    split
    · next ex heq =>
      have hexf : ex ∈ db.sample_customers.filter (fun c =>
          c.customer_name == n && c.shop == sh) := by
        apply List.mem_of_mem_head?
        rw [heq]
        rfl
      have hexm := (List.mem_filter.mp hexf).1
      have hexq := (List.mem_filter.mp hexf).2
      have hpex : pairOf ex = (n, sh) := by
        simp only [Bool.and_eq_true, beq_iff_eq] at hexq
        simp [pairOf, hexq.1, hexq.2]
      have hshopex : truthyStr ex.shop = true := hsc ex hexm
      have hupds : (if (truthyStr sh && !truthyStr ex.shop) = true then sh
          else ex.shop) = ex.shop := by
        simp [hshopex]
      have hGpair : ∀ c ∈ db.sample_customers,
          pairOf (if c.id == ex.id then
            { ex with
              shop := if (truthyStr sh && !truthyStr ex.shop) = true then sh
                else ex.shop,
              handler := if (truthyStr hd && !truthyStr ex.handler) = true
                then hd else ex.handler }
            else c) = pairOf c := by
        intro c hc
        by_cases hcid : c.id = ex.id
        · have hce : c = ex := hinj hc hexm hcid
          subst hce
          simp [pairOf, hupds, hshopex]
        · have hb : (c.id == ex.id) = false := by simpa using hcid
          simp [hb]
      have hGid : ∀ c ∈ db.sample_customers,
          SampleCustomerRec.id (if c.id == ex.id then
            { ex with
              shop := if (truthyStr sh && !truthyStr ex.shop) = true then sh
                else ex.shop,
              handler := if (truthyStr hd && !truthyStr ex.handler) = true
                then hd else ex.handler }
            else c) = c.id := by
        intro c hc
        by_cases hcid : c.id = ex.id
        · simp [hcid]
        · have hb : (c.id == ex.id) = false := by simpa using hcid
          simp [hb]
      have hGshop : ∀ c ∈ db.sample_customers,
          (if c.id == ex.id then
            { ex with
              shop := if (truthyStr sh && !truthyStr ex.shop) = true then sh
                else ex.shop,
              handler := if (truthyStr hd && !truthyStr ex.handler) = true
                then hd else ex.handler }
            else c).shop = c.shop := by
        intro c hc
        by_cases hcid : c.id = ex.id
        · have hce : c = ex := hinj hc hexm hcid
          subst hce
          simp [hupds, hshopex]
        · have hb : (c.id == ex.id) = false := by simpa using hcid
          simp [hb]
      have hpairs : (db.sample_customers.map (fun c =>
          if c.id == ex.id then
            { ex with
              shop := if (truthyStr sh && !truthyStr ex.shop) = true then sh
                else ex.shop,
              handler := if (truthyStr hd && !truthyStr ex.handler) = true
                then hd else ex.handler }
            else c)).map pairOf = db.sample_customers.map pairOf := by
        rw [List.map_map]
        exact List.map_congr_left (fun c hc => hGpair c hc)
      have hids : (db.sample_customers.map (fun c =>
          if c.id == ex.id then
            { ex with
              shop := if (truthyStr sh && !truthyStr ex.shop) = true then sh
                else ex.shop,
              handler := if (truthyStr hd && !truthyStr ex.handler) = true
                then hd else ex.handler }
            else c)).map SampleCustomerRec.id
          = db.sample_customers.map SampleCustomerRec.id := by
        rw [List.map_map]
        exact List.map_congr_left (fun c hc => hGid c hc)
      refine ⟨?_, ?_, ?_, ?_, ?_, rfl⟩
      · show ((db.sample_customers.map _).map pairOf).Nodup
        rw [hpairs]
        exact hpn
      · intro c2 hc2
        obtain ⟨c, hc, hGc⟩ := List.mem_map.mp hc2
        rw [← hGc, hGshop c hc]
        exact hsc c hc
      · show ((db.sample_customers.map _).map SampleCustomerRec.id).Nodup
        rw [hids]
        exact hidn
      · intro c2 hc2
        obtain ⟨c, hc, hGc⟩ := List.mem_map.mp hc2
        rw [← hGc]
        show SampleCustomerRec.id _ < db.next_sample_id
        rw [hGid c hc]
        exact hlt c hc
      · intro p
        show p ∈ (db.sample_customers.map _).map pairOf ↔ _
        rw [hpairs]
        constructor
        · intro hp
          exact Or.inl hp
        · rintro (hp | hp)
          · exact hp
          · rw [hp, ← hpex]
            exact List.mem_map_of_mem pairOf hexm
    · next heq =>
      have hnil : db.sample_customers.filter (fun c =>
          c.customer_name == n && c.shop == sh) = [] := by
        simpa using heq
      have hnotp : ∀ c ∈ db.sample_customers, pairOf c ≠ (n, sh) := by
        intro c hc hcon
        have h1 : c.customer_name = n := congrArg Prod.fst hcon
        have h2 : c.shop = sh := congrArg Prod.snd hcon
        have hcf : c ∈ db.sample_customers.filter (fun c =>
            c.customer_name == n && c.shop == sh) :=
          List.mem_filter.mpr ⟨hc, by simp [h1, h2]⟩
        rw [hnil] at hcf
        cases hcf
      refine ⟨?_, ?_, ?_, ?_, ?_, rfl⟩
      · rw [List.map_append]
        apply List.Nodup.append hpn (List.nodup_singleton _)
        intro p hp1 hp2
        obtain ⟨c, hc, hpc⟩ := List.mem_map.mp hp1
        have hp2e : p = (n, sh) := by simpa [pairOf] using hp2
        exact hnotp c hc (by rw [hpc, hp2e])
      · intro c hc
        rcases List.mem_append.mp hc with h | h
        · exact hsc c h
        · have hce : c = ⟨db.next_sample_id, n, sh, hd, none, none, 0, 0,
              false, none, none⟩ := by simpa using h
          rw [hce]
          exact hsh
      · rw [List.map_append]
        apply List.Nodup.append hidn (List.nodup_singleton _)
        intro i hi1 hi2
        obtain ⟨c, hc, hic⟩ := List.mem_map.mp hi1
        have hi2e : i = db.next_sample_id := by simpa using hi2
        have hcl := hlt c hc
        rw [hic, hi2e] at hcl
        exact absurd hcl (lt_irrefl _)
      · intro c hc
        rcases List.mem_append.mp hc with h | h
        · exact Nat.lt_succ_of_lt (hlt c h)
        · have hce : c = ⟨db.next_sample_id, n, sh, hd, none, none, 0, 0,
              false, none, none⟩ := by simpa using h
          rw [hce]
          exact Nat.lt_succ_self _
      · intro p
        rw [List.map_append]
        simp [pairOf]
  · next hfalse => exact absurd hsh hfalse

theorem csor_sampleSide (cid : Nat) (o : TypedOrderRec) (db : CDB) :
    (create_sample_order_relation cid o db).1.sample_customers
        = db.sample_customers ∧
    (create_sample_order_relation cid o db).1.next_sample_id
        = db.next_sample_id ∧
    (create_sample_order_relation cid o db).1.sample_orders
        = db.sample_orders := by
  unfold create_sample_order_relation
  split <;> exact ⟨rfl, rfl, rfl⟩

theorem relFold_sampleSide (cid : Nat) (orders : List TypedOrderRec) :
    ∀ p : CDB × CStats,
    ((orders.foldl (fun a o =>
        ((create_sample_order_relation cid o a.1).1,
         if (create_sample_order_relation cid o a.1).2 then
           { a.2 with sample_relations := a.2.sample_relations + 1 }
         else a.2)) p).1.sample_customers = p.1.sample_customers) ∧
    ((orders.foldl (fun a o =>
        ((create_sample_order_relation cid o a.1).1,
         if (create_sample_order_relation cid o a.1).2 then
           { a.2 with sample_relations := a.2.sample_relations + 1 }
         else a.2)) p).1.next_sample_id = p.1.next_sample_id) ∧
    ((orders.foldl (fun a o =>
        ((create_sample_order_relation cid o a.1).1,
         if (create_sample_order_relation cid o a.1).2 then
           { a.2 with sample_relations := a.2.sample_relations + 1 }
         else a.2)) p).1.sample_orders = p.1.sample_orders) := by
  induction orders with
  | nil => intro p; exact ⟨rfl, rfl, rfl⟩
  | cons o os ih =>
    intro p
    rw [List.foldl_cons]
    have hstep := csor_sampleSide cid o p.1
    obtain ⟨ha, hb, hc⟩ := ih
      ((create_sample_order_relation cid o p.1).1,
       if (create_sample_order_relation cid o p.1).2 then
         { p.2 with sample_relations := p.2.sample_relations + 1 }
       else p.2)
    exact ⟨ha.trans hstep.1, hb.trans hstep.2.1, hc.trans hstep.2.2⟩

theorem pst_reg (valid : List TypedOrderRec) (acc : CDB × CStats) (t : CTuple)
    (hsh : truthyStr t.2.1 = true)
    (hpn : ((acc.1.sample_customers.map pairOf).Nodup))
    (hsc : ∀ c ∈ acc.1.sample_customers, truthyStr c.shop = true)
    (hidn : ((acc.1.sample_customers.map SampleCustomerRec.id).Nodup))
    (hlt : ∀ c ∈ acc.1.sample_customers, c.id < acc.1.next_sample_id) :
    (((processSampleTuple valid acc t).1.sample_customers.map pairOf).Nodup) ∧
    (∀ c ∈ (processSampleTuple valid acc t).1.sample_customers,
      truthyStr c.shop = true) ∧
    (((processSampleTuple valid acc t).1.sample_customers.map
      SampleCustomerRec.id).Nodup) ∧
    (∀ c ∈ (processSampleTuple valid acc t).1.sample_customers,
      c.id < (processSampleTuple valid acc t).1.next_sample_id) ∧
    (∀ p, p ∈ (processSampleTuple valid acc t).1.sample_customers.map pairOf ↔
      p ∈ acc.1.sample_customers.map pairOf ∨ p = (t.1, t.2.1)) ∧
    (processSampleTuple valid acc t).1.sample_orders = acc.1.sample_orders := by
  have hf := focs_reg t.1 t.2.1 t.2.2 acc.1 acc.2 hsh hpn hsc hidn hlt
  have hfold := relFold_sampleSide
    (find_or_create_sample_customer t.1 t.2.1 t.2.2 acc.1 acc.2).1
    (valid.filter (fun o => o.customer_name == some t.1))
    ((find_or_create_sample_customer t.1 t.2.1 t.2.2 acc.1 acc.2).2)
  have e1 : (processSampleTuple valid acc t).1.sample_customers
      = (find_or_create_sample_customer t.1 t.2.1 t.2.2
        acc.1 acc.2).2.1.sample_customers := hfold.1
  have e2 : (processSampleTuple valid acc t).1.next_sample_id
      = (find_or_create_sample_customer t.1 t.2.1 t.2.2
        acc.1 acc.2).2.1.next_sample_id := hfold.2.1
  have e3 : (processSampleTuple valid acc t).1.sample_orders
      = (find_or_create_sample_customer t.1 t.2.1 t.2.2
        acc.1 acc.2).2.1.sample_orders := hfold.2.2
  refine ⟨?_, ?_, ?_, ?_, ?_, ?_⟩
  · rw [e1]
    exact hf.1
  · rw [e1]
    exact hf.2.1
  · rw [e1]
    exact hf.2.2.1
  · rw [e1, e2]
    exact hf.2.2.2.1
  · intro p
    rw [e1]
    exact hf.2.2.2.2.1 p
  · rw [e3]
    exact hf.2.2.2.2.2

theorem tupleFold_reg (valid : List TypedOrderRec) (ts : List CTuple)
    (hts : ∀ t ∈ ts, truthyStr t.2.1 = true) :
    ∀ (db : CDB) (st : CStats),
    ((db.sample_customers.map pairOf).Nodup) →
    (∀ c ∈ db.sample_customers, truthyStr c.shop = true) →
    ((db.sample_customers.map SampleCustomerRec.id).Nodup) →
    (∀ c ∈ db.sample_customers, c.id < db.next_sample_id) →
    (((ts.foldl (processSampleTuple valid) (db, st)).1.sample_customers.map
      pairOf).Nodup) ∧
    (∀ c ∈ (ts.foldl (processSampleTuple valid) (db, st)).1.sample_customers,
      truthyStr c.shop = true) ∧
    (((ts.foldl (processSampleTuple valid) (db, st)).1.sample_customers.map
      SampleCustomerRec.id).Nodup) ∧
    (∀ c ∈ (ts.foldl (processSampleTuple valid) (db, st)).1.sample_customers,
      c.id < (ts.foldl (processSampleTuple valid) (db, st)).1.next_sample_id) ∧
    (∀ p, p ∈ (ts.foldl (processSampleTuple valid)
        (db, st)).1.sample_customers.map pairOf ↔
      p ∈ db.sample_customers.map pairOf ∨
        p ∈ ts.map (fun t => (t.1, t.2.1))) ∧
    (ts.foldl (processSampleTuple valid) (db, st)).1.sample_orders
      = db.sample_orders := by
  induction ts with
  | nil =>
    intro db st h1 h2 h3 h4
    refine ⟨h1, h2, h3, h4, ?_, rfl⟩
    intro p
    simp
  | cons t ts ih =>
    intro db st h1 h2 h3 h4
    rw [List.foldl_cons]
    have hp := pst_reg valid (db, st) t (hts t (List.mem_cons_self t ts))
      h1 h2 h3 h4
    have hrec := ih (fun u hu => hts u (List.mem_cons_of_mem t hu))
      (processSampleTuple valid (db, st) t).1
      (processSampleTuple valid (db, st) t).2
      hp.1 hp.2.1 hp.2.2.1 hp.2.2.2.1
    refine ⟨hrec.1, hrec.2.1, hrec.2.2.1, hrec.2.2.2.1, ?_, ?_⟩
    · intro p
      rw [hrec.2.2.2.2.1 p, hp.2.2.2.2.1 p]
      simp only [List.map_cons, List.mem_cons]
      tauto
    · exact hrec.2.2.2.2.2.trans hp.2.2.2.2.2

theorem extractSample_reg (snapshot db : CDB) (st : CStats)
    (hs : ∀ o ∈ snapshot.sample_orders, o.customer_name.isSome = true →
      truthyStr o.shop = true)
    (h1 : ((db.sample_customers.map pairOf).Nodup))
    (h2 : ∀ c ∈ db.sample_customers, truthyStr c.shop = true)
    (h3 : ((db.sample_customers.map SampleCustomerRec.id).Nodup))
    (h4 : ∀ c ∈ db.sample_customers, c.id < db.next_sample_id) :
    (((extractFromSampleOrders snapshot db st).1.sample_customers.map
      pairOf).Nodup) ∧
    (∀ c ∈ (extractFromSampleOrders snapshot db st).1.sample_customers,
      truthyStr c.shop = true) ∧
    (((extractFromSampleOrders snapshot db st).1.sample_customers.map
      SampleCustomerRec.id).Nodup) ∧
    (∀ c ∈ (extractFromSampleOrders snapshot db st).1.sample_customers,
      c.id < (extractFromSampleOrders snapshot db st).1.next_sample_id) ∧
    (∀ p, p ∈ (extractFromSampleOrders snapshot db
        st).1.sample_customers.map pairOf ↔
      p ∈ db.sample_customers.map pairOf ∨
        p ∈ orderPairs snapshot.sample_orders) ∧
    (extractFromSampleOrders snapshot db st).1.sample_orders
      = db.sample_orders := by
  unfold extractFromSampleOrders
  dsimp only
  split
  · next hempty =>
    refine ⟨h1, h2, h3, h4, ?_, rfl⟩
    intro p
    have hnil : validOrders snapshot.sample_orders = [] := by
      simpa using hempty
    unfold orderPairs
    rw [hnil]
    simp
  · next hnonempty =>
    have hts : ∀ t ∈ orderTuples (validOrders snapshot.sample_orders),
        truthyStr t.2.1 = true := by
      intro t ht
      unfold orderTuples at ht
      rw [mem_dedupFirst] at ht
      obtain ⟨o, ho, hto⟩ := List.mem_map.mp ht
      have hov := List.mem_filter.mp ho
      rw [← hto]
      exact hs o hov.1 hov.2
    have hfold := tupleFold_reg (validOrders snapshot.sample_orders)
      (orderTuples (validOrders snapshot.sample_orders)) hts db st h1 h2 h3 h4
    refine ⟨hfold.1, hfold.2.1, hfold.2.2.1, hfold.2.2.2.1, ?_,
      hfold.2.2.2.2.2⟩
    intro p
    rw [hfold.2.2.2.2.1 p]
    have hmm : p ∈ (orderTuples (validOrders snapshot.sample_orders)).map
        (fun t => (t.1, t.2.1)) ↔ p ∈ orderPairs snapshot.sample_orders := by
      unfold orderTuples orderPairs
      constructor
      · intro h
        obtain ⟨t, ht, hpt⟩ := List.mem_map.mp h
        rw [mem_dedupFirst] at ht
        obtain ⟨o, ho, hto⟩ := List.mem_map.mp ht
        apply List.mem_map.mpr
        refine ⟨o, ho, ?_⟩
        rw [← hpt, ← hto]
      · intro h
        obtain ⟨o, ho, hpo⟩ := List.mem_map.mp h
        apply List.mem_map.mpr
        refine ⟨(o.customer_name.getD "", o.shop, o.handler), ?_, hpo⟩
        rw [mem_dedupFirst]
        exact List.mem_map_of_mem _ ho
    rw [hmm]

theorem focb_sampleSide (n : String) (sh hd : Option String) (db : CDB)
    (st : CStats) :
    (find_or_create_bulk_customer n sh hd db st).2.1.sample_customers
        = db.sample_customers ∧
    (find_or_create_bulk_customer n sh hd db st).2.1.next_sample_id
        = db.next_sample_id ∧
    (find_or_create_bulk_customer n sh hd db st).2.1.sample_orders
        = db.sample_orders := by
  unfold find_or_create_bulk_customer
  split <;> (dsimp only; split <;> exact ⟨rfl, rfl, rfl⟩)

theorem cbor_sampleSide (cid : Nat) (o : TypedOrderRec) (db : CDB) :
    (create_bulk_order_relation cid o db).1.sample_customers
        = db.sample_customers ∧
    (create_bulk_order_relation cid o db).1.next_sample_id
        = db.next_sample_id ∧
    (create_bulk_order_relation cid o db).1.sample_orders
        = db.sample_orders := by
  unfold create_bulk_order_relation
  split <;> exact ⟨rfl, rfl, rfl⟩

theorem relFold_bulkSampleSide (cid : Nat) (orders : List TypedOrderRec) :
    ∀ p : CDB × CStats,
    ((orders.foldl (fun a o =>
        ((create_bulk_order_relation cid o a.1).1,
         if (create_bulk_order_relation cid o a.1).2 then
           { a.2 with bulk_relations := a.2.bulk_relations + 1 }
         else a.2)) p).1.sample_customers = p.1.sample_customers) ∧
    ((orders.foldl (fun a o =>
        ((create_bulk_order_relation cid o a.1).1,
         if (create_bulk_order_relation cid o a.1).2 then
           { a.2 with bulk_relations := a.2.bulk_relations + 1 }
         else a.2)) p).1.next_sample_id = p.1.next_sample_id) ∧
    ((orders.foldl (fun a o =>
        ((create_bulk_order_relation cid o a.1).1,
         if (create_bulk_order_relation cid o a.1).2 then
           { a.2 with bulk_relations := a.2.bulk_relations + 1 }
         else a.2)) p).1.sample_orders = p.1.sample_orders) := by
  induction orders with
  | nil => intro p; exact ⟨rfl, rfl, rfl⟩
  | cons o os ih =>
    intro p
    rw [List.foldl_cons]
    have hstep := cbor_sampleSide cid o p.1
    obtain ⟨ha, hb, hc⟩ := ih
      ((create_bulk_order_relation cid o p.1).1,
       if (create_bulk_order_relation cid o p.1).2 then
         { p.2 with bulk_relations := p.2.bulk_relations + 1 }
       else p.2)
    exact ⟨ha.trans hstep.1, hb.trans hstep.2.1, hc.trans hstep.2.2⟩

theorem pbt_sampleSide (valid : List TypedOrderRec) (acc : CDB × CStats)
    (t : CTuple) :
    (processBulkTuple valid acc t).1.sample_customers
        = acc.1.sample_customers ∧
    (processBulkTuple valid acc t).1.next_sample_id
        = acc.1.next_sample_id ∧
    (processBulkTuple valid acc t).1.sample_orders
        = acc.1.sample_orders := by
  have hfold := relFold_bulkSampleSide
    (find_or_create_bulk_customer t.1 t.2.1 t.2.2 acc.1 acc.2).1
    (valid.filter (fun o => o.customer_name == some t.1))
    ((find_or_create_bulk_customer t.1 t.2.1 t.2.2 acc.1 acc.2).2)
  have hb := focb_sampleSide t.1 t.2.1 t.2.2 acc.1 acc.2
  exact ⟨hfold.1.trans hb.1, hfold.2.1.trans hb.2.1, hfold.2.2.trans hb.2.2⟩

theorem extractBulk_sampleSide (snapshot db : CDB) (st : CStats) :
    (extractFromBulkOrders snapshot db st).1.sample_customers
        = db.sample_customers ∧
    (extractFromBulkOrders snapshot db st).1.next_sample_id
        = db.next_sample_id ∧
    (extractFromBulkOrders snapshot db st).1.sample_orders
        = db.sample_orders := by
  unfold extractFromBulkOrders
  dsimp only
  split
  · exact ⟨rfl, rfl, rfl⟩
  · exact foldl_preserves _ (fun p : CDB × CStats =>
        p.1.sample_customers = db.sample_customers ∧
        p.1.next_sample_id = db.next_sample_id ∧
        p.1.sample_orders = db.sample_orders)
      (fun p t hp =>
        ⟨((pbt_sampleSide _ p t).1).trans hp.1,
         ((pbt_sampleSide _ p t).2.1).trans hp.2.1,
         ((pbt_sampleSide _ p t).2.2).trans hp.2.2⟩)
      _ (db, st) ⟨rfl, rfl, rfl⟩

theorem convertsLoop_ok_state (now : Nat)
    (pairs : List (SampleCustomerRec × BulkCustomerRec)) (db : CDB)
    (st : CStats) (res : CDB × CStats)
    (h : convertsLoop now pairs db st = Except.ok res) : res.1 = db := by
  induction pairs generalizing st with
  | nil =>
    unfold convertsLoop at h
    injection h with h2
    subst h2
    rfl
  | cons q rest ih =>
    unfold convertsLoop at h
    split at h
    · exact ih _ h
    · split at h
      · next hcon =>
        rw [nameDefined_timezone] at hcon
        cases hcon
      · cases h

theorem identify_ok_state (now : Nat) (snapshot db : CDB) (st : CStats)
    (res : CDB × CStats)
    (h : identify_customer_conversions now snapshot db st = Except.ok res) :
    res.1 = db := by
  unfold identify_customer_conversions at h
  split at h
  · injection h with h2
    subst h2
    rfl
  · exact convertsLoop_ok_state now _ db st res h

theorem statsF_pair (rels : List SampleRelationRec) (cid : Nat)
    (c : SampleCustomerRec) : pairOf (sampleStatsFields rels cid c) = pairOf c :=
  rfl

theorem statsF_shop (rels : List SampleRelationRec) (cid : Nat)
    (c : SampleCustomerRec) :
    (sampleStatsFields rels cid c).shop = c.shop := rfl

theorem updSampleStats_reg (snapshot db : CDB) :
    (update_sample_customer_stats snapshot db).sample_customers.map pairOf
        = db.sample_customers.map pairOf ∧
    (update_sample_customer_stats snapshot db).sample_customers.map
        SampleCustomerRec.id
        = db.sample_customers.map SampleCustomerRec.id ∧
    (update_sample_customer_stats snapshot db).sample_customers.map
        SampleCustomerRec.shop
        = db.sample_customers.map SampleCustomerRec.shop ∧
    (update_sample_customer_stats snapshot db).next_sample_id
        = db.next_sample_id ∧
    (update_sample_customer_stats snapshot db).sample_orders
        = db.sample_orders := by
  rw [update_sample_stats_eq_map]
  refine ⟨?_, ?_, ?_, rfl, rfl⟩
  · show (db.sample_customers.map _).map pairOf = _
    rw [List.map_map]
    apply List.map_congr_left
    intro c _
    simp only [Function.comp_apply]
    split <;> rfl
  · show (db.sample_customers.map _).map SampleCustomerRec.id = _
    rw [List.map_map]
    apply List.map_congr_left
    intro c _
    simp only [Function.comp_apply]
    split <;> rfl
  · show (db.sample_customers.map _).map SampleCustomerRec.shop = _
    rw [List.map_map]
    apply List.map_congr_left
    intro c _
    simp only [Function.comp_apply]
    split <;> rfl

theorem updBulkStats_sampleSide (snapshot db : CDB) :
    (update_bulk_customer_stats snapshot db).sample_customers
        = db.sample_customers ∧
    (update_bulk_customer_stats snapshot db).next_sample_id
        = db.next_sample_id ∧
    (update_bulk_customer_stats snapshot db).sample_orders
        = db.sample_orders := by
  rw [update_bulk_stats_eq_map]
  exact ⟨rfl, rfl, rfl⟩

theorem extract_call_reg_ok (now : Nat) (os : List TypedOrderRec) (db : CDB)
    (hs : ∀ o ∈ os, o.customer_name.isSome = true → truthyStr o.shop = true)
    (hinv : SampleRegInv os db) (r : CDB × CStats)
    (hid : identify_customer_conversions now db
      (extractFromBulkOrders db (extractFromSampleOrders db db CStats.zero).1
        (extractFromSampleOrders db db CStats.zero).2).1
      (extractFromBulkOrders db (extractFromSampleOrders db db CStats.zero).1
        (extractFromSampleOrders db db CStats.zero).2).2 = Except.ok r) :
    SampleRegInv os (extract_customers_from_orders now db).2 ∧
    (∀ p, p ∈ (extract_customers_from_orders now
        db).2.sample_customers.map pairOf ↔
      p ∈ db.sample_customers.map pairOf ∨ p ∈ orderPairs os) := by
  obtain ⟨ho, hpn, hsc, hidn, hlt⟩ := hinv
  have hsOrders : ∀ o ∈ db.sample_orders, o.customer_name.isSome = true →
      truthyStr o.shop = true := by
    rw [ho]
    exact hs
  have hA := extractSample_reg db db CStats.zero hsOrders hpn hsc hidn hlt
  have hB := extractBulk_sampleSide db
    (extractFromSampleOrders db db CStats.zero).1
    (extractFromSampleOrders db db CStats.zero).2
  have hr1 : r.1 = (extractFromBulkOrders db
      (extractFromSampleOrders db db CStats.zero).1
      (extractFromSampleOrders db db CStats.zero).2).1 :=
    identify_ok_state now db _ _ r hid
  unfold extract_customers_from_orders
  rw [extractStep3_ok now db _ r hid]
  dsimp only
  have hS := updSampleStats_reg db r.1
  have hB2 := updBulkStats_sampleSide db (update_sample_customer_stats db r.1)
  have e_cust : (update_bulk_customer_stats db
      (update_sample_customer_stats db r.1)).sample_customers.map pairOf
      = (extractFromSampleOrders db db
        CStats.zero).1.sample_customers.map pairOf := by
    rw [hB2.1, hS.1, hr1, hB.1]
  have e_id : (update_bulk_customer_stats db
      (update_sample_customer_stats db r.1)).sample_customers.map
        SampleCustomerRec.id
      = (extractFromSampleOrders db db CStats.zero).1.sample_customers.map
        SampleCustomerRec.id := by
    rw [hB2.1, hS.2.1, hr1, hB.1]
  have e_shop : (update_bulk_customer_stats db
      (update_sample_customer_stats db r.1)).sample_customers.map
        SampleCustomerRec.shop
      = (extractFromSampleOrders db db CStats.zero).1.sample_customers.map
        SampleCustomerRec.shop := by
    rw [hB2.1, hS.2.2.1, hr1, hB.1]
  have e_next : (update_bulk_customer_stats db
      (update_sample_customer_stats db r.1)).next_sample_id
      = (extractFromSampleOrders db db CStats.zero).1.next_sample_id := by
    rw [hB2.2.1, hS.2.2.2.1, hr1, hB.2.1]
  have e_orders : (update_bulk_customer_stats db
      (update_sample_customer_stats db r.1)).sample_orders
      = (extractFromSampleOrders db db CStats.zero).1.sample_orders := by
    rw [hB2.2.2, hS.2.2.2.2, hr1, hB.2.2]
  constructor
  · refine ⟨?_, ?_, ?_, ?_, ?_⟩
    · rw [e_orders, hA.2.2.2.2.2]
      exact ho
    · rw [e_cust]
      exact hA.1
    · intro c2 hc2
      have hsm : c2.shop ∈ (update_bulk_customer_stats db
          (update_sample_customer_stats db r.1)).sample_customers.map
            SampleCustomerRec.shop :=
        List.mem_map_of_mem _ hc2
      rw [e_shop] at hsm
      obtain ⟨c, hc, hcs⟩ := List.mem_map.mp hsm
      show truthyStr c2.shop = true
      rw [show c2.shop = c.shop from hcs.symm]
      exact hA.2.1 c hc
    · rw [e_id]
      exact hA.2.2.1
    · intro c2 hc2
      have him : c2.id ∈ (update_bulk_customer_stats db
          (update_sample_customer_stats db r.1)).sample_customers.map
            SampleCustomerRec.id :=
        List.mem_map_of_mem _ hc2
      rw [e_id] at him
      obtain ⟨c, hc, hci⟩ := List.mem_map.mp him
      show c2.id < _
      rw [e_next, show c2.id = c.id from hci.symm]
      exact hA.2.2.2.1 c hc
  · intro p
    rw [e_cust, hA.2.2.2.2.1 p]
    have hop : orderPairs db.sample_orders = orderPairs os := by rw [ho]
    rw [hop]

theorem identify_ok_of_empty (now : Nat) (snapshot db : CDB) (st : CStats)
    (h : snapshot.sample_customers = []) :
    identify_customer_conversions now snapshot db st = Except.ok (db, st) := by
  unfold identify_customer_conversions
  rw [h]
  simp

theorem extract_call_reg (now : Nat) (os : List TypedOrderRec) (db : CDB)
    (hs : ∀ o ∈ os, o.customer_name.isSome = true → truthyStr o.shop = true)
    (hinv : SampleRegInv os db) :
    SampleRegInv os (extract_customers_from_orders now db).2 ∧
    ((extract_customers_from_orders now db).2 = db ∨
      (∀ p, p ∈ (extract_customers_from_orders now
          db).2.sample_customers.map pairOf ↔
        p ∈ db.sample_customers.map pairOf ∨ p ∈ orderPairs os)) := by
  rcases hid : identify_customer_conversions now db
      (extractFromBulkOrders db (extractFromSampleOrders db db CStats.zero).1
        (extractFromSampleOrders db db CStats.zero).2).1
      (extractFromBulkOrders db (extractFromSampleOrders db db CStats.zero).1
        (extractFromSampleOrders db db CStats.zero).2).2 with msg | r
  · have herr := extractStep3_error now db _ msg hid
    unfold extract_customers_from_orders
    rw [herr]
    exact ⟨hinv, Or.inl rfl⟩
  · have h := extract_call_reg_ok now os db hs hinv r hid
    exact ⟨h.1, Or.inr h.2⟩

/-- C5 counterexample: two sample orders for the same customer name, one
with a shop and one with a NULL shop.  There are two distinct
`(customer_name, shop)` pairs, but extraction creates only ONE customer row:
the null-shop sighting looks customers up by name alone and merges into the
existing row, so the distinct-row count does not equal the distinct-pair
count. -/
theorem C5_counterexample :
    (CDB.sample_customers
      (extract_customers_from_orders 0
        { emptyCDB with sample_orders :=
          [⟨1, "S1", some "甲", some "淘宝", some "h", none, 0, some 10⟩,
           ⟨2, "S2", some "甲", none, some "h", none, 0, some 20⟩] }).2).length
      = 1 ∧
    (dedupFirst (orderPairs
      [⟨1, "S1", some "甲", some "淘宝", some "h", none, 0, some 10⟩,
       ⟨2, "S2", some "甲", none, some "h", none, 0, some 20⟩])).length = 2 :=
  ⟨rfl, rfl⟩

/-- C5 (amended): starting from empty registries, when every sample order
with a non-null customer_name also has a truthy (non-null, non-empty) shop,
the number of sample-customer rows after any positive number of extraction
calls equals the number of distinct `(customer_name, shop)` pairs among the
orders with non-null customer_name, regardless of how many times extraction
runs; repeated sightings only update metadata.  (When a sighting has a falsy
shop, the lookup falls back to name-only matching and may merge distinct
pairs, as the counterexample shows.) -/
theorem C5_distinct_customers_amended (os bs : List TypedOrderRec)
    (nS nB : Nat) (times : List Nat) (hne : times ≠ [])
    (hs : ∀ o ∈ os, o.customer_name.isSome = true → truthyStr o.shop = true) :
    (runExtracts ⟨os, bs, [], [], [], [], [], nS, nB⟩
      times).sample_customers.length
      = (dedupFirst (orderPairs os)).length := by
  rcases times with _ | ⟨t, ts⟩
  · exact absurd rfl hne
  have hinv0 : SampleRegInv os ⟨os, bs, [], [], [], [], [], nS, nB⟩ := by
    refine ⟨rfl, ?_, ?_, ?_, ?_⟩
    · exact List.nodup_nil
    · intro c hc
      cases hc
    · exact List.nodup_nil
    · intro c hc
      cases hc
  have hid1 := identify_ok_of_empty t
    (⟨os, bs, [], [], [], [], [], nS, nB⟩ : CDB)
    (extractFromBulkOrders ⟨os, bs, [], [], [], [], [], nS, nB⟩
      (extractFromSampleOrders ⟨os, bs, [], [], [], [], [], nS, nB⟩
        ⟨os, bs, [], [], [], [], [], nS, nB⟩ CStats.zero).1
      (extractFromSampleOrders ⟨os, bs, [], [], [], [], [], nS, nB⟩
        ⟨os, bs, [], [], [], [], [], nS, nB⟩ CStats.zero).2).1
    (extractFromBulkOrders ⟨os, bs, [], [], [], [], [], nS, nB⟩
      (extractFromSampleOrders ⟨os, bs, [], [], [], [], [], nS, nB⟩
        ⟨os, bs, [], [], [], [], [], nS, nB⟩ CStats.zero).1
      (extractFromSampleOrders ⟨os, bs, [], [], [], [], [], nS, nB⟩
        ⟨os, bs, [], [], [], [], [], nS, nB⟩ CStats.zero).2).2
    rfl
  have h1 := extract_call_reg_ok t os ⟨os, bs, [], [], [], [], [], nS, nB⟩ hs
    hinv0 _ hid1
  have hmem1 : ∀ p, p ∈ (extract_customers_from_orders t
      ⟨os, bs, [], [], [], [], [], nS, nB⟩).2.sample_customers.map pairOf ↔
      p ∈ orderPairs os := by
    intro p
    rw [h1.2 p]
    show p ∈ ([] : List SampleCustomerRec).map pairOf ∨ _ ↔ _
    simp
  have hiter : ∀ (us : List Nat) (s : CDB), SampleRegInv os s →
      (∀ p, p ∈ s.sample_customers.map pairOf ↔ p ∈ orderPairs os) →
      SampleRegInv os (us.foldl (fun d u =>
        (extract_customers_from_orders u d).2) s) ∧
      (∀ p, p ∈ (us.foldl (fun d u => (extract_customers_from_orders u d).2)
          s).sample_customers.map pairOf ↔ p ∈ orderPairs os) := by
    intro us
    induction us with
    | nil => intro s hs1 hs2; exact ⟨hs1, hs2⟩
    | cons u us ih =>
      intro s hs1 hs2
      rw [List.foldl_cons]
      have hc := extract_call_reg u os s hs hs1
      refine ih _ hc.1 ?_
      rcases hc.2 with heq | hiff
      · rw [heq]
        exact hs2
      · intro p
        rw [hiff p, hs2 p]
        constructor
        · rintro (h | h) <;> exact h
        · intro h
          exact Or.inl h
  have hfin := hiter ts (extract_customers_from_orders t
    ⟨os, bs, [], [], [], [], [], nS, nB⟩).2 h1.1 hmem1
  have hnodup : ((runExtracts ⟨os, bs, [], [], [], [], [], nS, nB⟩
      (t :: ts)).sample_customers.map pairOf).Nodup := hfin.1.2.1
  have hmemf : ∀ p, p ∈ (runExtracts ⟨os, bs, [], [], [], [], [], nS, nB⟩
      (t :: ts)).sample_customers.map pairOf ↔
      p ∈ dedupFirst (orderPairs os) := by
    intro p
    rw [mem_dedupFirst]
    exact hfin.2 p
  have hperm : List.Perm ((runExtracts ⟨os, bs, [], [], [], [], [], nS, nB⟩
      (t :: ts)).sample_customers.map pairOf) (dedupFirst (orderPairs os)) :=
    (List.perm_ext_iff_of_nodup hnodup (dedupFirst_nodup _)).mpr hmemf
  have hlen := hperm.length_eq
  rw [List.length_map] at hlen
  exact hlen

/-- C5 witness: the amended theorem at one order with a truthy shop and two
extraction calls: one customer row, one distinct pair. -/
theorem C5_witness :
    (runExtracts ⟨[⟨1, "S1", some "甲", some "A", some "h", none, 0, some 10⟩],
        [], [], [], [], [], [], 1, 1⟩
      [1, 2]).sample_customers.length
      = (dedupFirst (orderPairs
        [⟨1, "S1", some "甲", some "A", some "h", none, 0, some 10⟩])).length :=
  C5_distinct_customers_amended
    [⟨1, "S1", some "甲", some "A", some "h", none, 0, some 10⟩]
    [] 1 1 [1, 2] (by decide) (by decide)

end PandasCore
